import Mathlib

/-!
A shallow embedding of the Texas Hold'em engine in `src/logic/pokerLogic.js`
(repository `ashankshah/agentic-poker`), together with proofs checking the
specification's claims about it.

Modelling conventions:
* JS numbers used as chip counts, bet totals and seat indices are modelled as
  `Int` (the engine only ever produces integers from integer inputs).
* The deck is a `List Card` whose HEAD is the top of the deck: `deck.pop()` in
  JS removes the last array element, which is the next card dealt, so the JS
  array is our list reversed.  `shuffleDeck`'s random permutation is supplied
  to `startHand` as an explicit parameter.
* JS objects used as sets of seat indices (`actedSinceLastFullRaise`) are
  modelled as a `List Int` with membership-preserving insertion.
* In the few spots where the JS code would read `undefined` (indexing past an
  array's end, popping an empty deck, a missing `handStrength`), the model
  substitutes an explicit default and the spot is marked with a comment; all
  claims stay inside the defined region where the JS behaviour is total.
-/

namespace PokerLogic

inductive Suit where
  | H | C | S | D
deriving DecidableEq, Fintype

/-- The 13 card ranks, mirroring the `RANKS` string constants. -/
inductive Rank where
  | n2 | n3 | n4 | n5 | n6 | n7 | n8 | n9 | nT | nJ | nQ | nK | nA
deriving DecidableEq

/-- `{ rank, suit }` (the JS `id` string field is determined by the other two
fields and is omitted). -/
structure Card where
  rank : Rank
  suit : Suit
deriving DecidableEq

instance : Inhabited Card := ⟨⟨Rank.n2, Suit.H⟩⟩

/-- `getRankValue` from the source: A=14, K=13, Q=12, J=11, T=10, else the
digit value. -/
def getRankValue : Rank → Int
  | Rank.nA => 14
  | Rank.nK => 13
  | Rank.nQ => 12
  | Rank.nJ => 11
  | Rank.nT => 10
  | Rank.n9 => 9
  | Rank.n8 => 8
  | Rank.n7 => 7
  | Rank.n6 => 6
  | Rank.n5 => 5
  | Rank.n4 => 4
  | Rank.n3 => 3
  | Rank.n2 => 2

def SUITS : List Suit := [Suit.H, Suit.C, Suit.S, Suit.D]

def RANKS : List Rank :=
  [Rank.n2, Rank.n3, Rank.n4, Rank.n5, Rank.n6, Rank.n7, Rank.n8, Rank.n9,
   Rank.nT, Rank.nJ, Rank.nQ, Rank.nK, Rank.nA]

/-- `createDeck`: for each suit (outer loop), push each rank (inner loop). -/
def createDeck : List Card :=
  SUITS.flatMap (fun s => RANKS.map (fun r => ⟨r, s⟩))

inductive Phase where
  | idle | preflop | flop | turn | river | showdown
deriving DecidableEq

inductive PlayerStatus where
  | active | folded | allIn | eliminated
deriving DecidableEq

inductive Action where
  | fold | check | call | bet | raise | allIn
deriving DecidableEq

/-- Hand score: `{ tier, kickers, name }`. -/
structure HandResult where
  tier : Int
  kickers : List Int
  name : String
deriving DecidableEq

/-- Comparator of `sort((a, b) => getRankValue(b.rank) - getRankValue(a.rank))`:
`a` may come before `b` iff `a`'s rank value is at least `b`'s. -/
abbrev rankDescOrder (a b : Card) : Prop := getRankValue b.rank ≤ getRankValue a.rank

/-- Sorting of the 5 cards, descending by rank value.  JS `Array.sort` with a
total comparator; modelled by insertion sort (the tie order between equal
ranks never influences any later computation). -/
def sortCardsDesc (cards : List Card) : List Card :=
  cards.insertionSort rankDescOrder

/-- The consecutive-ranks loop `ranks[i] - ranks[i+1] !== 1` for i = 0..3.
Out-of-range access in JS yields `undefined` and the comparison fails, so any
list without five elements is not a straight. -/
def isConsecutive : List Int → Bool
  | a :: b :: c :: d :: e :: _ =>
      decide (a - b = 1) && decide (b - c = 1) && decide (c - d = 1) && decide (d - e = 1)
  | _ => false

/-- The wheel test `ranks[0]===14 && ranks[1]===5 && ... && ranks[4]===2`. -/
def isWheelRanks : List Int → Bool
  | a :: b :: c :: d :: e :: _ =>
      decide (a = 14) && decide (b = 5) && decide (c = 4) && decide (d = 3) && decide (e = 2)
  | _ => false

/-- `suits.every(s => s === suits[0])` (vacuously true on the empty list). -/
def allSameSuit : List Suit → Bool
  | [] => true
  | s0 :: rest => rest.all (fun s => decide (s = s0))

/-- Comparator `(a, b) => b.c - a.c || b.r - a.r`: count descending, then rank
descending. -/
abbrev groupOrder (g1 g2 : Int × Int) : Prop :=
  g2.2 < g1.2 ∨ (g1.2 = g2.2 ∧ g2.1 ≤ g1.1)

/-- The rank-multiplicity groups `{ r, c }`, sorted by count descending then
rank descending.  The JS builds an object keyed by rank and sorts
`Object.entries`; since the comparator is a total order on the distinct
(rank, count) pairs, the result does not depend on the pre-sort order and we
take the distinct ranks before sorting. -/
def rankGroups (ranks : List Int) : List (Int × Int) :=
  (ranks.dedup.map (fun r => (r, (ranks.count r : Int)))).insertionSort groupOrder

/-- Descending sort `(a, b) => b - a` used for kicker lists. -/
def sortIntDesc (l : List Int) : List Int :=
  l.insertionSort (fun a b => b ≤ a)

/-- The classification body of `evaluate5CardHand`, taking the already-sorted
cards.  `groups[0]` / `groups[1]` are always present for 5-card input; the
defaults stand in for the `undefined` JS would produce on degenerate input. -/
def evalSorted (sorted : List Card) : HandResult :=
  let ranks := sorted.map (fun c => getRankValue c.rank)
  let suits := sorted.map (fun c => c.suit)
  let isFlush := allSameSuit suits
  let straight0 := isConsecutive ranks
  let wheel := !straight0 && isWheelRanks ranks
  let isStraight := straight0 || wheel
  let straightKickers : List Int := if wheel then [5, 4, 3, 2, 1] else ranks
  let groups := rankGroups ranks
  let g0 := groups.getD 0 (0, 0)
  let g1 := groups.getD 1 (0, 0)
  if isFlush && isStraight then ⟨8, straightKickers, "Straight Flush"⟩
  else if g0.2 = 4 then ⟨7, [g0.1, g1.1], "Four of a Kind"⟩
  else if g0.2 = 3 ∧ g1.2 = 2 then ⟨6, [g0.1, g1.1], "Full House"⟩
  else if isFlush then ⟨5, ranks, "Flush"⟩
  else if isStraight then ⟨4, straightKickers, "Straight"⟩
  else if g0.2 = 3 then
    ⟨3, g0.1 :: sortIntDesc (ranks.filter (fun r => decide (r ≠ g0.1))), "Three of a Kind"⟩
  else if g0.2 = 2 ∧ g1.2 = 2 then
    let kicker := match groups.get? 2 with
      | some g2 => g2.1
      | none => ((ranks.find? (fun r => decide (r ≠ g0.1 ∧ r ≠ g1.1))).getD 0)
    ⟨2, [g0.1, g1.1, kicker], "Two Pair"⟩
  else if g0.2 = 2 then
    ⟨1, g0.1 :: sortIntDesc (ranks.filter (fun r => decide (r ≠ g0.1))), "Pair"⟩
  else ⟨0, ranks, "High Card"⟩

/-- `evaluate5CardHand`. -/
def evaluate5CardHand (cards : List Card) : HandResult :=
  evalSorted (sortCardsDesc cards)

/-- The kicker-comparison loop of `compareHandsResults`: it runs over the
indices of `a`'s kicker list; where `b`'s list is shorter, the JS comparisons
against `undefined` are both false and the loop continues. -/
def compareKickers : List Int → List Int → Int
  | [], _ => 0
  | a :: as, b :: bs => if a > b then 1 else if b > a then -1 else compareKickers as bs
  | _ :: as, [] => compareKickers as []

/-- `compareHandsResults`: 1 if A > B, -1 if B > A, 0 on a tie. -/
def compareHandsResults (a b : HandResult) : Int :=
  if a.tier > b.tier then 1
  else if b.tier > a.tier then -1
  else compareKickers a.kickers b.kickers

/-- `getCombinations(array, k)`: all k-element sublists, k = 1 short-circuits
to singletons (on an empty array every k yields no combinations). -/
def getCombinations : List Card → Nat → List (List Card)
  | [], _ => []
  | el :: rest, k =>
      if k = 1 then (el :: rest).map (fun e => [e])
      else ((getCombinations rest (k - 1)).map (fun comb => el :: comb)) ++ getCombinations rest k

/-- `evaluateHand(holeCards, communityCards)`: with fewer than 5 cards the
sentinel `{ tier: 0, kickers: [], name: 'Waiting...' }`; otherwise the best of
all 5-card combinations.  The fold mirrors the `bestHand` accumulator
(`null` start, replace when strictly better); the final `getD` covers the
`null` return JS could only produce on an empty combination list, which cannot
happen at ≥ 5 cards. -/
def evaluateHand (holeCards communityCards : List Card) : HandResult :=
  let allCards := holeCards ++ communityCards
  if allCards.length < 5 then ⟨0, [], "Waiting..."⟩
  else
    let combos := getCombinations allCards 5
    let best := combos.foldl
      (fun best combo =>
        let result := evaluate5CardHand combo
        match best with
        | none => some result
        | some b => if compareHandsResults result b > 0 then some result else some b)
      none
    best.getD ⟨0, [], "Waiting..."⟩

-- ===========================================================================
-- Engine state model
-- ===========================================================================

/-- A seat, with both the canonical fields and the UI-convenience mirror
fields kept by `syncLegacyFields`. -/
structure Player where
  id : Int
  positionIndex : Int
  name : String
  isHuman : Bool
  stack : Int
  holeCards : List Card
  currentBet : Int
  totalCommitted : Int
  status : PlayerStatus
  hand : List Card
  chips : Int
  bet : Int
  totalInvested : Int
  folded : Bool
  currentAction : String
  showCards : Bool
  aggressiveLevel : Option Int
  tightLevel : Option Int
  handStrength : Option HandResult
deriving DecidableEq

structure BettingState where
  highestBetThisRound : Int
  minRaiseAmount : Int
  lastFullRaiseSize : Int
  /-- The JS object keyed by seat index, as the list of seats in the set. -/
  actedSinceLastFullRaise : List Int
  lastReopenerIndex : Int
  startingIndex : Int
  currentActorIndex : Int
  hasActedThisRound : Bool
deriving DecidableEq

structure Pot where
  amount : Int
  eligiblePlayers : List Int
deriving DecidableEq

structure GameState where
  deck : List Card
  communityCards : List Card
  phase : Phase
  dealerIndex : Int
  sbAmount : Int
  bbAmount : Int
  players : List Player
  betting : BettingState
  pots : List Pot
  winners : List Int
  handOver : Bool
  message : String
  oddChipStartIndex : Int
deriving DecidableEq

/-- `clampInt(n, lo, hi) = Math.max(lo, Math.min(hi, parseInt(n)))` (the
amounts are already integers here). -/
def clampInt (n lo hi : Int) : Int := max lo (min hi n)

abbrev isInHand (p : Player) : Prop :=
  p.status = PlayerStatus.active ∨ p.status = PlayerStatus.allIn

abbrev canAct (p : Player) : Prop := p.status = PlayerStatus.active ∧ 0 < p.stack

abbrev isFolded (p : Player) : Prop := p.status = PlayerStatus.folded

/-- Copy the canonical fields into the legacy mirror fields. -/
def syncLegacyFields (p : Player) : Player :=
  { p with
    chips := p.stack
    hand := p.holeCards
    bet := p.currentBet
    totalInvested := p.totalCommitted
    folded := decide (p.status = PlayerStatus.folded) }

/-- `createPlayers(count, startingStack, names)`. -/
def createPlayers (count : Nat) (startingStack : Int) (names : List String) : List Player :=
  (List.range count).map (fun (i : Nat) =>
    { id := (i : Int)
      positionIndex := (i : Int)
      name :=
        let n := names.getD i ""
        if n = "" then (if i = 0 then "You" else "Bot " ++ toString i) else n
      isHuman := decide (i = 0)
      stack := startingStack
      holeCards := []
      currentBet := 0
      totalCommitted := 0
      status := PlayerStatus.active
      hand := []
      chips := startingStack
      bet := 0
      totalInvested := 0
      folded := false
      currentAction := ""
      showCards := false
      aggressiveLevel := if i = 0 then none else some 50
      tightLevel := if i = 0 then none else some 50
      handStrength := none })

/-- `createInitialGameState({ players, sbAmount, bbAmount, dealerIndex })`. -/
def createInitialGameState (players : List Player) (sbAmount bbAmount dealerIndex : Int) :
    GameState :=
  { deck := []
    communityCards := []
    phase := Phase.idle
    dealerIndex := dealerIndex
    sbAmount := sbAmount
    bbAmount := bbAmount
    players := players.map syncLegacyFields
    betting :=
      { highestBetThisRound := 0
        minRaiseAmount := bbAmount
        lastFullRaiseSize := bbAmount
        actedSinceLastFullRaise := []
        lastReopenerIndex := -1
        startingIndex := -1
        currentActorIndex := -1
        hasActedThisRound := false }
    pots := []
    winners := []
    handOver := false
    message := ""
    oddChipStartIndex := dealerIndex }

/-- JS `state.players[i]`: `undefined` when the index is out of range. -/
def getPlayer? (s : GameState) (i : Int) : Option Player :=
  if i < 0 then none else s.players.get? i.toNat

/-- Replace the player object at seat `i` (no-op when out of range, where the
JS program would have crashed dereferencing `undefined`). -/
def setPlayerAt (s : GameState) (i : Int) (p : Player) : GameState :=
  if i < 0 then s else { s with players := s.players.set i.toNat p }

def updatePlayerAt (s : GameState) (i : Int) (f : Player → Player) : GameState :=
  match getPlayer? s i with
  | none => s
  | some p => setPlayerAt s i (f p)

instance : Inhabited Player :=
  ⟨{ id := 0, positionIndex := 0, name := "", isHuman := false, stack := 0, holeCards := [],
     currentBet := 0, totalCommitted := 0, status := PlayerStatus.active, hand := [], chips := 0,
     bet := 0, totalInvested := 0, folded := false, currentAction := "", showCards := false,
     aggressiveLevel := none, tightLevel := none, handStrength := none }⟩

/-- JS object-aliasing `find(p => p.id === id)` followed by mutation: update
the first player whose id matches. -/
def updateFirstById (s : GameState) (pid : Int) (f : Player → Player) : GameState :=
  match s.players.findIdx? (fun p => decide (p.id = pid)) with
  | none => s
  | some n => { s with players := s.players.set n (f (s.players.getD n default)) }

/-- `nextIndexClockwise`: `(from + 1) % players.length` (JS `%` is truncated
division remainder). -/
def nextIndexClockwise (s : GameState) (i : Int) : Int :=
  (i + 1).tmod (s.players.length : Int)

/-- The `while (loop < players.length)` search of `findNextToAct`, with the
loop counter as explicit fuel. -/
def findNextToActAux (s : GameState) (idx : Int) : Nat → Int
  | 0 => -1
  | fuel + 1 =>
    match getPlayer? s idx with
    | some p => if canAct p then idx else findNextToActAux s (nextIndexClockwise s idx) fuel
    | none => findNextToActAux s (nextIndexClockwise s idx) fuel

/-- `findNextToAct(state, fromIndex)`. -/
def findNextToAct (s : GameState) (fromIndex : Int) : Int :=
  if s.players.length = 0 then -1
  else findNextToActAux s (nextIndexClockwise s fromIndex) s.players.length

/-- `commitChips(player, amount)`: commit up to the remaining stack, flipping
an Active player who hits stack 0 to AllIn; returns the updated player and the
amount actually committed. -/
def commitChips (p : Player) (amount : Int) : Player × Int :=
  let toCommit := min p.stack (max 0 amount)
  let p1 := { p with
    stack := p.stack - toCommit
    currentBet := p.currentBet + toCommit
    totalCommitted := p.totalCommitted + toCommit }
  let p2 := if p1.stack = 0 ∧ p1.status = PlayerStatus.active
    then { p1 with status := PlayerStatus.allIn } else p1
  (syncLegacyFields p2, toCommit)

/-- `burnOne`: discard the top card when the deck is non-empty. -/
def burnOne (s : GameState) : GameState :=
  match s.deck with
  | [] => s
  | _ :: rest => { s with deck := rest }

/-- `dealCommunity(state, count)`: pop `count` cards onto the board.  JS would
push `undefined` from an empty deck; the model pushes a default card there
(no caller ever deals from an empty deck). -/
def dealCommunity (s : GameState) : Nat → GameState
  | 0 => s
  | n + 1 =>
    let s1 := match s.deck with
      | c :: rest => { s with deck := rest, communityCards := s.communityCards ++ [c] }
      | [] => { s with communityCards := s.communityCards ++ [default] }
    dealCommunity s1 n

-- ===========================================================================
-- Hand start
-- ===========================================================================

/-- One hole-card deal: give the top deck card to seat `i` if that seat is
Active (default card on an exhausted deck, see `dealCommunity`). -/
def dealHoleTo (s : GameState) (i : Int) : GameState :=
  match getPlayer? s i with
  | none => s
  | some p =>
    if p.status = PlayerStatus.active then
      match s.deck with
      | c :: rest =>
        setPlayerAt { s with deck := rest } i
          (syncLegacyFields { p with holeCards := p.holeCards ++ [c] })
      | [] => setPlayerAt s i (syncLegacyFields { p with holeCards := p.holeCards ++ [default] })
    else s

/-- Post one blind: `commitChips` when the seat is Active, otherwise 0. -/
def postBlind (s : GameState) (i : Int) (amt : Int) : GameState × Int :=
  match getPlayer? s i with
  | none => (s, 0)
  | some p =>
    if p.status = PlayerStatus.active then
      let pc := commitChips p amt
      (setPlayerAt s i pc.1, pc.2)
    else (s, 0)

/-- The inner `for (offset = 1; offset <= seats; offset++)` dealing loop of
`startHand`: deal one card to each seat clockwise from the dealer, `remaining`
seats left, `offset` the next dealer offset. -/
def dealOffsets (seats : Nat) (s : GameState) (offset : Nat) : Nat → GameState
  | 0 => s
  | remaining + 1 =>
    dealOffsets seats
      (dealHoleTo s ((s.dealerIndex + (offset : Int)).tmod (seats : Int))) (offset + 1) remaining

/-- `startHand(state)`.  The result of `shuffleDeck(createDeck())` is the
explicit `shuffled` parameter (the only randomness in the engine). -/
def startHand (s : GameState) (shuffled : List Card) : GameState :=
  let s1 := { s with
    handOver := false
    winners := []
    pots := []
    communityCards := []
    phase := Phase.preflop
    message := ""
    deck := shuffled }
  let s2 := { s1 with
    players := s1.players.map (fun p =>
      syncLegacyFields { p with
        status := if p.stack ≤ 0 then PlayerStatus.eliminated else PlayerStatus.active
        holeCards := []
        currentBet := 0
        totalCommitted := 0
        currentAction := ""
        showCards := false
        folded := false }) }
  let seats := s2.players.length
  let s3 := dealOffsets seats (dealOffsets seats s2 1 seats) 1 seats
  let sbIndex := (s3.dealerIndex + 1).tmod (seats : Int)
  let bbIndex := (s3.dealerIndex + 2).tmod (seats : Int)
  let sbRes := postBlind s3 sbIndex s3.sbAmount
  let bbRes := postBlind sbRes.1 bbIndex sbRes.1.bbAmount
  let s4 := bbRes.1
  let s5 := updatePlayerAt s4 sbIndex
    (fun q => { q with currentAction := if 0 < sbRes.2 then "Small Blind" else "" })
  let s6 := updatePlayerAt s5 bbIndex
    (fun q => { q with currentAction := if 0 < bbRes.2 then "Big Blind" else "" })
  let sbBet := ((getPlayer? s6 sbIndex).map (fun p => p.currentBet)).getD 0
  let bbBet := ((getPlayer? s6 bbIndex).map (fun p => p.currentBet)).getD 0
  { s6 with betting :=
    { highestBetThisRound := max sbBet bbBet
      minRaiseAmount := s6.bbAmount
      lastFullRaiseSize := s6.bbAmount
      actedSinceLastFullRaise := []
      lastReopenerIndex := bbIndex
      startingIndex := findNextToAct s6 bbIndex
      currentActorIndex := findNextToAct s6 bbIndex
      hasActedThisRound := false } }

-- ===========================================================================
-- Legal actions and round bookkeeping
-- ===========================================================================

structure LegalActions where
  canFold : Bool
  canCheck : Bool
  canCall : Bool
  canBet : Bool
  canRaise : Bool
  canAllIn : Bool
  callAmount : Int
  minTotalBet : Int
  maxTotalBet : Int
deriving DecidableEq

def noLegalActions : LegalActions :=
  ⟨false, false, false, false, false, false, 0, 0, 0⟩

/-- `getLegalActions(state, playerIndex)`. -/
def getLegalActions (s : GameState) (playerIndex : Int) : LegalActions :=
  match getPlayer? s playerIndex with
  | none => noLegalActions
  | some p =>
    if ¬ canAct p ∨ s.handOver then noLegalActions
    else
      let highest := s.betting.highestBetThisRound
      let callAmount := max 0 (highest - p.currentBet)
      let minRaise := s.betting.minRaiseAmount
      let maxTotalBet := p.currentBet + p.stack
      let alreadyActed := playerIndex ∈ s.betting.actedSinceLastFullRaise
      { canFold := true
        canCheck := decide (callAmount = 0)
        canCall := decide (0 < callAmount ∧ 0 < p.stack)
        canBet := decide (highest = 0 ∧ 0 < p.stack)
        canRaise := decide (0 < highest ∧ ¬ alreadyActed ∧ highest < maxTotalBet)
        canAllIn := decide (0 < p.stack)
        callAmount := callAmount
        minTotalBet := highest + minRaise
        maxTotalBet := maxTotalBet }

/-- `allPlayersSettledToHighest`. -/
def allPlayersSettledToHighest (s : GameState) : Prop :=
  ∀ p ∈ s.players,
    isFolded p ∨ ¬ isInHand p ∨ p.status = PlayerStatus.allIn ∨
      p.currentBet = s.betting.highestBetThisRound

instance (s : GameState) : Decidable (allPlayersSettledToHighest s) := by
  unfold allPlayersSettledToHighest
  infer_instance

/-- `bettingRoundShouldEnd(state, nextActorIndex)`.  (`lastReopenerIndex ?? startingIndex`
never falls through since `lastReopenerIndex` is always a number.) -/
def bettingRoundShouldEnd (s : GameState) (nextActorIndex : Int) : Prop :=
  nextActorIndex = -1 ∨
    (s.betting.hasActedThisRound = true ∧ allPlayersSettledToHighest s ∧
      nextActorIndex =
        (if s.betting.highestBetThisRound = 0 then s.betting.startingIndex
         else s.betting.lastReopenerIndex))

instance (s : GameState) (n : Int) : Decidable (bettingRoundShouldEnd s n) := by
  unfold bettingRoundShouldEnd
  infer_instance

/-- `resetBetsForNextStreet`. -/
def resetBetsForNextStreet (s : GameState) : GameState :=
  let s1 := { s with
    players := s.players.map (fun (p : Player) =>
      syncLegacyFields { p with currentBet := 0, bet := 0, currentAction := "" }) }
  { s1 with betting := { s1.betting with
      highestBetThisRound := 0
      minRaiseAmount := s1.bbAmount
      lastFullRaiseSize := s1.bbAmount
      actedSinceLastFullRaise := []
      lastReopenerIndex := -1
      hasActedThisRound := false } }

/-- `maybeEndHandIfOneLeft`: `(ended, state)`. -/
def maybeEndHandIfOneLeft (s : GameState) : Bool × GameState :=
  let remaining := s.players.filter (fun p => decide (isInHand p ∧ ¬ isFolded p))
  match remaining with
  | [r] =>
    (true, { s with
      handOver := true
      phase := Phase.showdown
      winners := [r.id]
      message := r.name ++ " wins (all others folded)" })
  | _ => (false, s)

-- ===========================================================================
-- Side pots
-- ===========================================================================

structure Contributor where
  id : Int
  committed : Int
  folded : Bool
deriving DecidableEq

/-- The per-level loop of `computeSidePots`, with `prev` threading the
previous level. -/
def potsAux (contributors : List Contributor) (prev : Int) : List Int → List Pot
  | [] => []
  | level :: rest =>
    let eligibleContribs := contributors.filter (fun c => decide (level ≤ c.committed))
    let amount := (level - prev) * (eligibleContribs.length : Int)
    let eligiblePlayers := (eligibleContribs.filter (fun c => ¬ c.folded)).map (fun c => c.id)
    ⟨amount, eligiblePlayers⟩ :: potsAux contributors level rest

/-- `[...new Set(x)].sort((a, b) => a - b)`: the distinct commitment levels
in ascending order. -/
def sortedLevels (C : List Contributor) : List Int :=
  ((C.map (fun c => c.committed)).dedup).insertionSort (fun a b => a ≤ b)

/-- `computeSidePots(players)`: distinct commitment levels ascending, one pot
slice per level, zero-amount pots filtered at the end. -/
def computeSidePots (players : List Player) : List Pot :=
  let contributors := (players.filter (fun p => decide (0 < p.totalCommitted))).map
    (fun p => Contributor.mk p.id p.totalCommitted (decide (p.status = PlayerStatus.folded)))
  if contributors.isEmpty then []
  else (potsAux contributors 0 (sortedLevels contributors)).filter
    (fun pot => decide (0 < pot.amount))

-- ===========================================================================
-- Showdown resolution
-- ===========================================================================

/-- The default hand score used where the JS would dereference an undefined
`handStrength` (never reached through the engine's own flows, which always
evaluate hands before awarding). -/
def undefinedScore : HandResult := ⟨0, [], ""⟩

def scoreOf (p : Player) : HandResult := p.handStrength.getD undefinedScore

/-- The winner-scan of `awardPot`: best score so far and the players tied at
it. -/
def bestAmong (e : Player) (es : List Player) : List Player :=
  (es.foldl
    (fun (bw : HandResult × List Player) q =>
      let cmp := compareHandsResults (scoreOf q) bw.1
      if cmp > 0 then (scoreOf q, [q])
      else if cmp = 0 then (bw.1, bw.2 ++ [q])
      else bw)
    (scoreOf e, [e])).2

/-- The odd-chip distribution loop: walk clockwise from `start`, giving one
chip per winner seat, bounded by `players.length * 2` iterations. -/
def oddChipLoop (winnerIds : List Int) (s : GameState) (idx : Int) (remainder : Int) :
    Nat → GameState
  | 0 => s
  | fuel + 1 =>
    if 0 < remainder then
      match getPlayer? s idx with
      | some seatPlayer =>
        if seatPlayer.id ∈ winnerIds then
          oddChipLoop winnerIds
            (setPlayerAt s idx (syncLegacyFields { seatPlayer with stack := seatPlayer.stack + 1 }))
            (nextIndexClockwise s idx) (remainder - 1) fuel
        else oddChipLoop winnerIds s (nextIndexClockwise s idx) remainder fuel
      | none => oddChipLoop winnerIds s (nextIndexClockwise s idx) remainder fuel
    else s

/-- `awardPot(state, pot, oddChipStartIndex)`: returns the new state and the
winner ids (`[]` for the JS `undefined` return on an empty eligible list). -/
def awardPot (s : GameState) (pot : Pot) (oddChipStartIndex : Int) : GameState × List Int :=
  let eligible := pot.eligiblePlayers.filterMap
    (fun pid => s.players.find? (fun p => decide (p.id = pid)))
  match eligible with
  | [] => (s, [])
  | e :: es =>
    let winners := bestAmong e es
    let baseShare := Int.fdiv pot.amount (winners.length : Int)
    let remainder := pot.amount - baseShare * (winners.length : Int)
    let winnerIds := winners.map (fun w => w.id)
    let s1 := winnerIds.foldl
      (fun acc wid =>
        updateFirstById acc wid
          (fun q => syncLegacyFields { q with stack := q.stack + baseShare }))
      s
    let s2 :=
      if 0 < remainder then
        oddChipLoop winnerIds s1 ((oddChipStartIndex + 1).tmod (s1.players.length : Int))
          remainder (s1.players.length * 2)
      else s1
    let s3 := winnerIds.foldl
      (fun acc wid => updateFirstById acc wid (fun q => { q with currentAction := "WINNER" }))
      s2
    (s3, winnerIds)

/-- `resolveHand(state)`.  `awardPot` only ever rewrites the `players` list,
so after the award loop the result record is reassembled from `s4` with the
awarded players spliced in; this is the same state the JS in-place mutation
produces. -/
def resolveHand (s : GameState) : GameState :=
  let players1 := s.players.map (fun (p : Player) =>
    syncLegacyFields { p with showCards := decide (p.status ≠ PlayerStatus.folded) })
  let players2 := players1.map (fun (p : Player) =>
    if p.status = PlayerStatus.folded ∨ p.holeCards.length < 2 then p
    else { p with handStrength := some (evaluateHand p.holeCards s.communityCards) })
  let pots := computeSidePots players2
  let s4 := { s with phase := Phase.showdown, handOver := true, players := players2, pots := pots }
  let res := pots.foldl
    (fun (acc : GameState × List Int) pot =>
      let aw := awardPot acc.1 pot acc.1.dealerIndex
      (aw.1, aw.2.foldl (fun ws w => if w ∈ ws then ws else ws ++ [w]) acc.2))
    (s4, [])
  let desc :=
    match res.2 with
    | [] => "Hand"
    | w :: _ =>
      match res.1.players.find? (fun p => decide (p.id = w)) with
      | none => "Hand"
      | some fw =>
        match fw.handStrength with
        | none => "Hand"
        | some hs => if hs.name = "" then "Hand" else hs.name
  { s4 with
    players := res.1.players
    winners := res.2
    message :=
      if 1 < res.2.length then "Split pot (" ++ desc ++ ")" else "Winner: " ++ desc }

-- ===========================================================================
-- Street advancement and applyAction
-- ===========================================================================

/-- The shared tail of `advanceStreet`: reset the street betting state and
seat the first actor left of the dealer. -/
def advanceStreetTail (s : GameState) : Bool × GameState :=
  let s1 := resetBetsForNextStreet s
  let starter := findNextToAct s1 s1.dealerIndex
  (true, { s1 with betting := { s1.betting with startingIndex := starter, currentActorIndex := starter } })

/-- `advanceStreet(state)`: `(advanced, state)`; `false` exactly on the river
(with the state untouched), and any other phase falls through to the shared
tail with no phase change, as in the source. -/
def advanceStreet (s : GameState) : Bool × GameState :=
  match s.phase with
  | Phase.preflop => advanceStreetTail { dealCommunity (burnOne s) 3 with phase := Phase.flop }
  | Phase.flop => advanceStreetTail { dealCommunity (burnOne s) 1 with phase := Phase.turn }
  | Phase.turn => advanceStreetTail { dealCommunity (burnOne s) 1 with phase := Phase.river }
  | Phase.river => (false, s)
  | _ => advanceStreetTail s

/-- Mark seat `i` as having acted (reopen bookkeeping + `hasActedThisRound`);
inserting an already-present seat leaves the JS object unchanged. -/
def markActed (s : GameState) (i : Int) : GameState :=
  { s with betting := { s.betting with
      actedSinceLastFullRaise :=
        if i ∈ s.betting.actedSinceLastFullRaise then s.betting.actedSinceLastFullRaise
        else s.betting.actedSinceLastFullRaise ++ [i]
      hasActedThisRound := true } }

/-- The common post-action tail of `applyAction`: early hand end on a single
remaining player, otherwise advance the actor and maybe the street. -/
def finishAction (s : GameState) (playerIndex : Int) : GameState :=
  let me := maybeEndHandIfOneLeft s
  if me.1 then
    let s1 := me.2
    let pots := computeSidePots s1.players
    let total := (pots.map (fun pt => pt.amount)).sum
    let s2 :=
      match s1.winners with
      | [] => s1
      | w :: _ => updateFirstById s1 w (fun q => syncLegacyFields { q with stack := q.stack + total })
    { s2 with pots := pots }
  else
    let nextActor := findNextToAct s playerIndex
    let s1 := { s with betting := { s.betting with currentActorIndex := nextActor } }
    if bettingRoundShouldEnd s1 nextActor then
      let adv := advanceStreet s1
      if adv.1 then adv.2 else resolveHand adv.2
    else s1

/-- The `RAISE`/`ALL_IN` branch of `applyAction`. -/
def raiseOrAllInBranch (s1 : GameState) (p : Player) (playerIndex : Int)
    (legal : LegalActions) (highest amount : Int) (isAllInAct : Bool) : GameState :=
  if legal.canRaise = false ∧ isAllInAct = false then s1
  else
    let maxTotal := p.currentBet + p.stack
    let desiredTotal := clampInt amount (highest + 1) maxTotal
    let isAllIn := isAllInAct = true ∨ maxTotal ≤ desiredTotal
    let total := if isAllIn then maxTotal else desiredTotal
    if total ≤ highest then s1
    else
      let raiseSize := total - highest
      let prevFullRaise := s1.betting.lastFullRaiseSize
      let meetsMinRaise := prevFullRaise ≤ raiseSize
      if ¬ isAllIn ∧ ¬ meetsMinRaise then s1
      else
        let pc := commitChips p (total - p.currentBet)
        let p2 := pc.1
        let actStr :=
          if p2.status = PlayerStatus.allIn then "All-In " ++ toString p2.currentBet
          else "Raise to " ++ toString p2.currentBet
        let p3 := syncLegacyFields { p2 with currentAction := actStr }
        let s2 := setPlayerAt s1 playerIndex p3
        let s3 := { s2 with betting := { s2.betting with highestBetThisRound := p2.currentBet } }
        let s4 :=
          if meetsMinRaise then
            { s3 with betting := { s3.betting with
                lastFullRaiseSize := raiseSize
                minRaiseAmount := raiseSize
                actedSinceLastFullRaise := [playerIndex]
                lastReopenerIndex := playerIndex } }
          else s3
        finishAction s4 playerIndex

/-- `applyAction(state, playerIndex, action, amount)`. -/
def applyAction (s : GameState) (playerIndex : Int) (action : Action) (amount : Int) : GameState :=
  if s.handOver then s
  else
    match getPlayer? s playerIndex with
    | none => s
    | some p =>
      if ¬ canAct p then s
      else
        let highest := s.betting.highestBetThisRound
        let callAmt := max 0 (highest - p.currentBet)
        let legal := getLegalActions s playerIndex
        let s1 := markActed s playerIndex
        match action with
        | Action.fold =>
          finishAction
            (setPlayerAt s1 playerIndex
              (syncLegacyFields { p with status := PlayerStatus.folded, currentAction := "Fold" }))
            playerIndex
        | Action.check =>
          if legal.canCheck = false then s1
          else
            finishAction
              (setPlayerAt s1 playerIndex (syncLegacyFields { p with currentAction := "Check" }))
              playerIndex
        | Action.call =>
          if legal.canCall = false ∧ 0 < callAmt then s1
          else
            let pc := commitChips p callAmt
            let actStr :=
              if pc.1.status = PlayerStatus.allIn ∧ pc.2 < callAmt then "All-In" else "Call"
            let p3 := syncLegacyFields { pc.1 with currentAction := actStr }
            finishAction (setPlayerAt s1 playerIndex p3) playerIndex
        | Action.bet =>
          if legal.canBet = false then s1
          else
            let betSize := clampInt amount 1 (p.currentBet + p.stack)
            let finalBet := max s.bbAmount betSize
            let pc := commitChips p finalBet
            let p2 := pc.1
            let actStr :=
              if p2.status = PlayerStatus.allIn then "All-In " ++ toString p2.currentBet
              else "Bet " ++ toString p2.currentBet
            let p3 := syncLegacyFields { p2 with currentAction := actStr }
            let s2 := setPlayerAt s1 playerIndex p3
            let s3 := { s2 with betting := { s2.betting with
                highestBetThisRound := p2.currentBet
                minRaiseAmount := pc.2
                lastFullRaiseSize := pc.2
                actedSinceLastFullRaise := [playerIndex]
                lastReopenerIndex := playerIndex } }
            finishAction s3 playerIndex
        | Action.raise => raiseOrAllInBranch s1 p playerIndex legal highest amount false
        | Action.allIn => raiseOrAllInBranch s1 p playerIndex legal highest amount true

-- ===========================================================================
-- Concrete fixtures for the claim instances
-- ===========================================================================

/-- A seat with the given id, stack, street bet, hand commitment and status
(other fields neutral), mirror fields synced. -/
def mkSeat (pid stack curBet committed : Int) (st : PlayerStatus) : Player :=
  syncLegacyFields
    { id := pid, positionIndex := pid, name := "P" ++ toString pid, isHuman := false
      stack := stack, holeCards := [], currentBet := curBet, totalCommitted := committed
      status := st, hand := [], chips := 0, bet := 0, totalInvested := 0, folded := false
      currentAction := "", showCards := false, aggressiveLevel := some 50
      tightLevel := some 50, handStrength := none }

/-- The commitment profile of the side-pot example: 100 (all-in), 200
(all-in), 200 (folded), 500 (active). -/
def sidePotPlayers : List Player :=
  [mkSeat 0 0 0 100 PlayerStatus.allIn,
   mkSeat 1 0 0 200 PlayerStatus.allIn,
   mkSeat 2 0 0 200 PlayerStatus.folded,
   mkSeat 3 0 0 500 PlayerStatus.active]

/-- An in-progress 3-seat betting state: highest bet 100, last full raise 80,
seats 0 and 1 already acted since the last full raise, seat 2 (stack 20,
already 100 in) to act. -/
def shortAllInState : GameState :=
  { deck := []
    communityCards := []
    phase := Phase.preflop
    dealerIndex := 0
    sbAmount := 5
    bbAmount := 10
    players :=
      [mkSeat 0 1000 100 100 PlayerStatus.active,
       mkSeat 1 1000 100 100 PlayerStatus.active,
       mkSeat 2 20 100 100 PlayerStatus.active]
    betting :=
      { highestBetThisRound := 100
        minRaiseAmount := 80
        lastFullRaiseSize := 80
        actedSinceLastFullRaise := [0, 1]
        lastReopenerIndex := 1
        startingIndex := 2
        currentActorIndex := 2
        hasActedThisRound := false }
    pots := []
    winners := []
    handOver := false
    message := ""
    oddChipStartIndex := 0 }

/-- Like `shortAllInState`, but seat 2 is itself already in the acted set and
has a deep stack (920), so its all-in to 1020 would be a full raise. -/
def closedOutAllInState : GameState :=
  { shortAllInState with
    players :=
      [mkSeat 0 1000 100 100 PlayerStatus.active,
       mkSeat 1 1000 100 100 PlayerStatus.active,
       mkSeat 2 920 100 100 PlayerStatus.active]
    betting := { shortAllInState.betting with actedSinceLastFullRaise := [0, 1, 2] } }

/-- Like `shortAllInState`, but seat 1 has not bet this street (`currentBet`
0 against a highest bet of 100) and has not yet acted: checking here is
facing a bet and therefore illegal. -/
def checkFacingBetState : GameState :=
  { shortAllInState with
    players :=
      [mkSeat 0 1000 100 100 PlayerStatus.active,
       mkSeat 1 1000 0 0 PlayerStatus.active,
       mkSeat 2 1000 100 100 PlayerStatus.active]
    betting := { shortAllInState.betting with
      actedSinceLastFullRaise := [0]
      currentActorIndex := 1
      hasActedThisRound := false } }

/-- The suited wheel A-2-3-4-5 of hearts. -/
def suitedWheel : List Card :=
  [⟨Rank.nA, Suit.H⟩, ⟨Rank.n2, Suit.H⟩, ⟨Rank.n3, Suit.H⟩, ⟨Rank.n4, Suit.H⟩,
   ⟨Rank.n5, Suit.H⟩]

/-- A 6-high straight 2-3-4-5-6 of mixed suits. -/
def sixHighStraight : List Card :=
  [⟨Rank.n2, Suit.C⟩, ⟨Rank.n3, Suit.D⟩, ⟨Rank.n4, Suit.H⟩, ⟨Rank.n5, Suit.S⟩,
   ⟨Rank.n6, Suit.C⟩]

instance : IsTrans Card rankDescOrder :=
  ⟨fun _ _ _ h1 h2 => le_trans h2 h1⟩

instance : IsTotal Card rankDescOrder :=
  ⟨fun a b => (le_total (getRankValue a.rank) (getRankValue b.rank)).symm⟩

-- ===========================================================================
-- The check/call driver for the heads-up street progression
-- ===========================================================================

/-- One scripted action: the current actor calls when facing a bet and checks
otherwise (the loop body of the engine's own street-progression self-test). -/
def ccStep (s : GameState) : GameState :=
  let i := s.betting.currentActorIndex
  match getPlayer? s i with
  | none => s
  | some p =>
    if p.currentBet < s.betting.highestBetThisRound then applyAction s i Action.call 0
    else applyAction s i Action.check 0

def ccRun (s : GameState) : Nat → GameState
  | 0 => s
  | n + 1 => ccRun (ccStep s) n

/-- The phases of the states visited by `n` scripted actions (n+1 entries). -/
def ccPhases (s : GameState) : Nat → List Phase
  | 0 => [s.phase]
  | n + 1 => s.phase :: ccPhases (ccStep s) n

/-- Two seats with equal stacks 1000, blinds 5/10, dealer 0, dealt from the
given shuffled deck. -/
def headsUpStart (deck : List Card) : GameState :=
  startHand (createInitialGameState (createPlayers 2 1000 []) 5 10 0) deck

/-- The state after 0 scripted check/call actions of the heads-up hand
(cards `c1`-`c12` are the first twelve cards of the shuffled deck, `rest` the
remainder). -/
def huState0 (c1 c2 c3 c4 c5 c6 c7 c8 c9 c10 c11 c12 : Card) (rest : List Card) : GameState :=
  { deck := (c5 :: c6 :: c7 :: c8 :: c9 :: c10 :: c11 :: c12 :: rest), communityCards := [], phase := Phase.preflop, dealerIndex := 0, sbAmount := 5, bbAmount := 10, players := [{ id := 0, positionIndex := 0, name := "You", isHuman := true, stack := 990, holeCards := [c2, c4], currentBet := 10, totalCommitted := 10, status := PlayerStatus.active, hand := [c2, c4], chips := 990, bet := 10, totalInvested := 10, folded := false, currentAction := "Big Blind", showCards := false, aggressiveLevel := none, tightLevel := none, handStrength := none }, { id := 1, positionIndex := 1, name := "Bot 1", isHuman := false, stack := 995, holeCards := [c1, c3], currentBet := 5, totalCommitted := 5, status := PlayerStatus.active, hand := [c1, c3], chips := 995, bet := 5, totalInvested := 5, folded := false, currentAction := "Small Blind", showCards := false, aggressiveLevel := some 50, tightLevel := some 50, handStrength := none }], betting := { highestBetThisRound := 10, minRaiseAmount := 10, lastFullRaiseSize := 10, actedSinceLastFullRaise := [], lastReopenerIndex := 0, startingIndex := 1, currentActorIndex := 1, hasActedThisRound := false }, pots := [], winners := [], handOver := false, message := "", oddChipStartIndex := 0 }

/-- The state after 1 scripted check/call actions of the heads-up hand
(cards `c1`-`c12` are the first twelve cards of the shuffled deck, `rest` the
remainder). -/
def huState1 (c1 c2 c3 c4 c6 c7 c8 c9 c10 c11 c12 : Card) (rest : List Card) : GameState :=
  { deck := (c9 :: c10 :: c11 :: c12 :: rest), communityCards := [c6, c7, c8], phase := Phase.flop, dealerIndex := 0, sbAmount := 5, bbAmount := 10, players := [{ id := 0, positionIndex := 0, name := "You", isHuman := true, stack := 990, holeCards := [c2, c4], currentBet := 0, totalCommitted := 10, status := PlayerStatus.active, hand := [c2, c4], chips := 990, bet := 0, totalInvested := 10, folded := false, currentAction := "", showCards := false, aggressiveLevel := none, tightLevel := none, handStrength := none }, { id := 1, positionIndex := 1, name := "Bot 1", isHuman := false, stack := 990, holeCards := [c1, c3], currentBet := 0, totalCommitted := 10, status := PlayerStatus.active, hand := [c1, c3], chips := 990, bet := 0, totalInvested := 10, folded := false, currentAction := "", showCards := false, aggressiveLevel := some 50, tightLevel := some 50, handStrength := none }], betting := { highestBetThisRound := 0, minRaiseAmount := 10, lastFullRaiseSize := 10, actedSinceLastFullRaise := [], lastReopenerIndex := -1, startingIndex := 1, currentActorIndex := 1, hasActedThisRound := false }, pots := [], winners := [], handOver := false, message := "", oddChipStartIndex := 0 }

/-- The state after 2 scripted check/call actions of the heads-up hand
(cards `c1`-`c12` are the first twelve cards of the shuffled deck, `rest` the
remainder). -/
def huState2 (c1 c2 c3 c4 c6 c7 c8 c9 c10 c11 c12 : Card) (rest : List Card) : GameState :=
  { deck := (c9 :: c10 :: c11 :: c12 :: rest), communityCards := [c6, c7, c8], phase := Phase.flop, dealerIndex := 0, sbAmount := 5, bbAmount := 10, players := [{ id := 0, positionIndex := 0, name := "You", isHuman := true, stack := 990, holeCards := [c2, c4], currentBet := 0, totalCommitted := 10, status := PlayerStatus.active, hand := [c2, c4], chips := 990, bet := 0, totalInvested := 10, folded := false, currentAction := "", showCards := false, aggressiveLevel := none, tightLevel := none, handStrength := none }, { id := 1, positionIndex := 1, name := "Bot 1", isHuman := false, stack := 990, holeCards := [c1, c3], currentBet := 0, totalCommitted := 10, status := PlayerStatus.active, hand := [c1, c3], chips := 990, bet := 0, totalInvested := 10, folded := false, currentAction := "Check", showCards := false, aggressiveLevel := some 50, tightLevel := some 50, handStrength := none }], betting := { highestBetThisRound := 0, minRaiseAmount := 10, lastFullRaiseSize := 10, actedSinceLastFullRaise := [1], lastReopenerIndex := -1, startingIndex := 1, currentActorIndex := 0, hasActedThisRound := true }, pots := [], winners := [], handOver := false, message := "", oddChipStartIndex := 0 }

/-- The state after 3 scripted check/call actions of the heads-up hand
(cards `c1`-`c12` are the first twelve cards of the shuffled deck, `rest` the
remainder). -/
def huState3 (c1 c2 c3 c4 c6 c7 c8 c10 c11 c12 : Card) (rest : List Card) : GameState :=
  { deck := (c11 :: c12 :: rest), communityCards := [c6, c7, c8, c10], phase := Phase.turn, dealerIndex := 0, sbAmount := 5, bbAmount := 10, players := [{ id := 0, positionIndex := 0, name := "You", isHuman := true, stack := 990, holeCards := [c2, c4], currentBet := 0, totalCommitted := 10, status := PlayerStatus.active, hand := [c2, c4], chips := 990, bet := 0, totalInvested := 10, folded := false, currentAction := "", showCards := false, aggressiveLevel := none, tightLevel := none, handStrength := none }, { id := 1, positionIndex := 1, name := "Bot 1", isHuman := false, stack := 990, holeCards := [c1, c3], currentBet := 0, totalCommitted := 10, status := PlayerStatus.active, hand := [c1, c3], chips := 990, bet := 0, totalInvested := 10, folded := false, currentAction := "", showCards := false, aggressiveLevel := some 50, tightLevel := some 50, handStrength := none }], betting := { highestBetThisRound := 0, minRaiseAmount := 10, lastFullRaiseSize := 10, actedSinceLastFullRaise := [], lastReopenerIndex := -1, startingIndex := 1, currentActorIndex := 1, hasActedThisRound := false }, pots := [], winners := [], handOver := false, message := "", oddChipStartIndex := 0 }

/-- The state after 4 scripted check/call actions of the heads-up hand
(cards `c1`-`c12` are the first twelve cards of the shuffled deck, `rest` the
remainder). -/
def huState4 (c1 c2 c3 c4 c6 c7 c8 c10 c11 c12 : Card) (rest : List Card) : GameState :=
  { deck := (c11 :: c12 :: rest), communityCards := [c6, c7, c8, c10], phase := Phase.turn, dealerIndex := 0, sbAmount := 5, bbAmount := 10, players := [{ id := 0, positionIndex := 0, name := "You", isHuman := true, stack := 990, holeCards := [c2, c4], currentBet := 0, totalCommitted := 10, status := PlayerStatus.active, hand := [c2, c4], chips := 990, bet := 0, totalInvested := 10, folded := false, currentAction := "", showCards := false, aggressiveLevel := none, tightLevel := none, handStrength := none }, { id := 1, positionIndex := 1, name := "Bot 1", isHuman := false, stack := 990, holeCards := [c1, c3], currentBet := 0, totalCommitted := 10, status := PlayerStatus.active, hand := [c1, c3], chips := 990, bet := 0, totalInvested := 10, folded := false, currentAction := "Check", showCards := false, aggressiveLevel := some 50, tightLevel := some 50, handStrength := none }], betting := { highestBetThisRound := 0, minRaiseAmount := 10, lastFullRaiseSize := 10, actedSinceLastFullRaise := [1], lastReopenerIndex := -1, startingIndex := 1, currentActorIndex := 0, hasActedThisRound := true }, pots := [], winners := [], handOver := false, message := "", oddChipStartIndex := 0 }

/-- The state after 5 scripted check/call actions of the heads-up hand
(cards `c1`-`c12` are the first twelve cards of the shuffled deck, `rest` the
remainder). -/
def huState5 (c1 c2 c3 c4 c6 c7 c8 c10 c12 : Card) (rest : List Card) : GameState :=
  { deck := rest, communityCards := [c6, c7, c8, c10, c12], phase := Phase.river, dealerIndex := 0, sbAmount := 5, bbAmount := 10, players := [{ id := 0, positionIndex := 0, name := "You", isHuman := true, stack := 990, holeCards := [c2, c4], currentBet := 0, totalCommitted := 10, status := PlayerStatus.active, hand := [c2, c4], chips := 990, bet := 0, totalInvested := 10, folded := false, currentAction := "", showCards := false, aggressiveLevel := none, tightLevel := none, handStrength := none }, { id := 1, positionIndex := 1, name := "Bot 1", isHuman := false, stack := 990, holeCards := [c1, c3], currentBet := 0, totalCommitted := 10, status := PlayerStatus.active, hand := [c1, c3], chips := 990, bet := 0, totalInvested := 10, folded := false, currentAction := "", showCards := false, aggressiveLevel := some 50, tightLevel := some 50, handStrength := none }], betting := { highestBetThisRound := 0, minRaiseAmount := 10, lastFullRaiseSize := 10, actedSinceLastFullRaise := [], lastReopenerIndex := -1, startingIndex := 1, currentActorIndex := 1, hasActedThisRound := false }, pots := [], winners := [], handOver := false, message := "", oddChipStartIndex := 0 }

/-- The state after 6 scripted check/call actions of the heads-up hand
(cards `c1`-`c12` are the first twelve cards of the shuffled deck, `rest` the
remainder). -/
def huState6 (c1 c2 c3 c4 c6 c7 c8 c10 c12 : Card) (rest : List Card) : GameState :=
  { deck := rest, communityCards := [c6, c7, c8, c10, c12], phase := Phase.river, dealerIndex := 0, sbAmount := 5, bbAmount := 10, players := [{ id := 0, positionIndex := 0, name := "You", isHuman := true, stack := 990, holeCards := [c2, c4], currentBet := 0, totalCommitted := 10, status := PlayerStatus.active, hand := [c2, c4], chips := 990, bet := 0, totalInvested := 10, folded := false, currentAction := "", showCards := false, aggressiveLevel := none, tightLevel := none, handStrength := none }, { id := 1, positionIndex := 1, name := "Bot 1", isHuman := false, stack := 990, holeCards := [c1, c3], currentBet := 0, totalCommitted := 10, status := PlayerStatus.active, hand := [c1, c3], chips := 990, bet := 0, totalInvested := 10, folded := false, currentAction := "Check", showCards := false, aggressiveLevel := some 50, tightLevel := some 50, handStrength := none }], betting := { highestBetThisRound := 0, minRaiseAmount := 10, lastFullRaiseSize := 10, actedSinceLastFullRaise := [1], lastReopenerIndex := -1, startingIndex := 1, currentActorIndex := 0, hasActedThisRound := true }, pots := [], winners := [], handOver := false, message := "", oddChipStartIndex := 0 }

/-- A concrete High Card hand (A-K-J-9-7 of mixed suits). -/
def highCardHand : List Card :=
  [⟨Rank.nA, Suit.H⟩, ⟨Rank.nK, Suit.S⟩, ⟨Rank.nJ, Suit.D⟩, ⟨Rank.n9, Suit.C⟩,
   ⟨Rank.n7, Suit.H⟩]

/-- The slice of the pot layers up to `L` that a single contributor with
commitment `v` is counted in (`prev` is the level below the first layer). -/
def levelContrib (prev : Int) : List Int → Int → Int
  | [], _ => 0
  | l :: rest, v => (if l ≤ v then l - prev else 0) + levelContrib l rest v

instance : IsTrans Int (fun a b : Int => a ≤ b) := ⟨fun _ _ _ => le_trans⟩

instance : IsTotal Int (fun a b : Int => a ≤ b) := ⟨le_total⟩

/-- Every player's stack is non-negative. -/
abbrev StacksNonneg (s : GameState) : Prop := ∀ p ∈ s.players, 0 ≤ p.stack

theorem bot_one_name : "Bot " ++ toString 1 = "Bot 1" := rfl

/-- `resolveHand` only rewrites players/pots/winners/message; its phase,
handOver flag and board are fixed by the record it assembles. -/
theorem resolveHand_phase (s : GameState) : (resolveHand s).phase = Phase.showdown := rfl

theorem resolveHand_handOver (s : GameState) : (resolveHand s).handOver = true := rfl

theorem resolveHand_communityCards (s : GameState) :
    (resolveHand s).communityCards = s.communityCards := rfl

/-- `Int.tmod` literal evaluations used by the two-seat index arithmetic. -/
theorem int_tmod_zero_two : Int.tmod 0 2 = 0 := by decide

theorem int_tmod_one_two : Int.tmod 1 2 = 1 := by decide

theorem int_tmod_two_two : Int.tmod 2 2 = 0 := by decide

theorem int_tmod_three_two : Int.tmod 3 2 = 1 := by decide

theorem huStep1 (c1 c2 c3 c4 c5 c6 c7 c8 c9 c10 c11 c12 : Card) (rest : List Card) :
    ccStep (huState0 c1 c2 c3 c4 c5 c6 c7 c8 c9 c10 c11 c12 rest) = huState1 c1 c2 c3 c4 c6 c7 c8 c9 c10 c11 c12 rest := by
  simp [huState0, huState1, ccStep, applyAction, getPlayer?, setPlayerAt, updatePlayerAt, syncLegacyFields, commitChips, canAct, isInHand, isFolded, findNextToAct, findNextToActAux, nextIndexClockwise, markActed, getLegalActions, noLegalActions, finishAction, maybeEndHandIfOneLeft, bettingRoundShouldEnd, allPlayersSettledToHighest, advanceStreet, advanceStreetTail, resetBetsForNextStreet, burnOne, dealCommunity, clampInt, int_tmod_zero_two, int_tmod_one_two, int_tmod_two_two, int_tmod_three_two]

theorem huStep2 (c1 c2 c3 c4 c6 c7 c8 c9 c10 c11 c12 : Card) (rest : List Card) :
    ccStep (huState1 c1 c2 c3 c4 c6 c7 c8 c9 c10 c11 c12 rest) = huState2 c1 c2 c3 c4 c6 c7 c8 c9 c10 c11 c12 rest := by
  simp [huState1, huState2, ccStep, applyAction, getPlayer?, setPlayerAt, updatePlayerAt, syncLegacyFields, commitChips, canAct, isInHand, isFolded, findNextToAct, findNextToActAux, nextIndexClockwise, markActed, getLegalActions, noLegalActions, finishAction, maybeEndHandIfOneLeft, bettingRoundShouldEnd, allPlayersSettledToHighest, advanceStreet, advanceStreetTail, resetBetsForNextStreet, burnOne, dealCommunity, clampInt, int_tmod_zero_two, int_tmod_one_two, int_tmod_two_two, int_tmod_three_two]

theorem huStep3 (c1 c2 c3 c4 c6 c7 c8 c9 c10 c11 c12 : Card) (rest : List Card) :
    ccStep (huState2 c1 c2 c3 c4 c6 c7 c8 c9 c10 c11 c12 rest) = huState3 c1 c2 c3 c4 c6 c7 c8 c10 c11 c12 rest := by
  simp [huState2, huState3, ccStep, applyAction, getPlayer?, setPlayerAt, updatePlayerAt, syncLegacyFields, commitChips, canAct, isInHand, isFolded, findNextToAct, findNextToActAux, nextIndexClockwise, markActed, getLegalActions, noLegalActions, finishAction, maybeEndHandIfOneLeft, bettingRoundShouldEnd, allPlayersSettledToHighest, advanceStreet, advanceStreetTail, resetBetsForNextStreet, burnOne, dealCommunity, clampInt, int_tmod_zero_two, int_tmod_one_two, int_tmod_two_two, int_tmod_three_two]

theorem huStep4 (c1 c2 c3 c4 c6 c7 c8 c10 c11 c12 : Card) (rest : List Card) :
    ccStep (huState3 c1 c2 c3 c4 c6 c7 c8 c10 c11 c12 rest) = huState4 c1 c2 c3 c4 c6 c7 c8 c10 c11 c12 rest := by
  simp [huState3, huState4, ccStep, applyAction, getPlayer?, setPlayerAt, updatePlayerAt, syncLegacyFields, commitChips, canAct, isInHand, isFolded, findNextToAct, findNextToActAux, nextIndexClockwise, markActed, getLegalActions, noLegalActions, finishAction, maybeEndHandIfOneLeft, bettingRoundShouldEnd, allPlayersSettledToHighest, advanceStreet, advanceStreetTail, resetBetsForNextStreet, burnOne, dealCommunity, clampInt, int_tmod_zero_two, int_tmod_one_two, int_tmod_two_two, int_tmod_three_two]

theorem huStep5 (c1 c2 c3 c4 c6 c7 c8 c10 c11 c12 : Card) (rest : List Card) :
    ccStep (huState4 c1 c2 c3 c4 c6 c7 c8 c10 c11 c12 rest) = huState5 c1 c2 c3 c4 c6 c7 c8 c10 c12 rest := by
  simp [huState4, huState5, ccStep, applyAction, getPlayer?, setPlayerAt, updatePlayerAt, syncLegacyFields, commitChips, canAct, isInHand, isFolded, findNextToAct, findNextToActAux, nextIndexClockwise, markActed, getLegalActions, noLegalActions, finishAction, maybeEndHandIfOneLeft, bettingRoundShouldEnd, allPlayersSettledToHighest, advanceStreet, advanceStreetTail, resetBetsForNextStreet, burnOne, dealCommunity, clampInt, int_tmod_zero_two, int_tmod_one_two, int_tmod_two_two, int_tmod_three_two]

theorem huStep6 (c1 c2 c3 c4 c6 c7 c8 c10 c12 : Card) (rest : List Card) :
    ccStep (huState5 c1 c2 c3 c4 c6 c7 c8 c10 c12 rest) = huState6 c1 c2 c3 c4 c6 c7 c8 c10 c12 rest := by
  simp [huState5, huState6, ccStep, applyAction, getPlayer?, setPlayerAt, updatePlayerAt, syncLegacyFields, commitChips, canAct, isInHand, isFolded, findNextToAct, findNextToActAux, nextIndexClockwise, markActed, getLegalActions, noLegalActions, finishAction, maybeEndHandIfOneLeft, bettingRoundShouldEnd, allPlayersSettledToHighest, advanceStreet, advanceStreetTail, resetBetsForNextStreet, burnOne, dealCommunity, clampInt, int_tmod_zero_two, int_tmod_one_two, int_tmod_two_two, int_tmod_three_two]

theorem huStep7Phase (c1 c2 c3 c4 c6 c7 c8 c10 c12 : Card) (rest : List Card) :
    (ccStep (huState6 c1 c2 c3 c4 c6 c7 c8 c10 c12 rest)).phase = Phase.showdown := by
  simp [huState6, ccStep, applyAction, getPlayer?, setPlayerAt, updatePlayerAt, syncLegacyFields, commitChips, canAct, isInHand, isFolded, findNextToAct, findNextToActAux, nextIndexClockwise, markActed, getLegalActions, noLegalActions, finishAction, maybeEndHandIfOneLeft, bettingRoundShouldEnd, allPlayersSettledToHighest, advanceStreet, advanceStreetTail, resetBetsForNextStreet, burnOne, dealCommunity, clampInt, int_tmod_zero_two, int_tmod_one_two, int_tmod_two_two, int_tmod_three_two, resolveHand_phase, resolveHand_handOver, resolveHand_communityCards]

theorem huStep7Over (c1 c2 c3 c4 c6 c7 c8 c10 c12 : Card) (rest : List Card) :
    (ccStep (huState6 c1 c2 c3 c4 c6 c7 c8 c10 c12 rest)).handOver = true := by
  simp [huState6, ccStep, applyAction, getPlayer?, setPlayerAt, updatePlayerAt, syncLegacyFields, commitChips, canAct, isInHand, isFolded, findNextToAct, findNextToActAux, nextIndexClockwise, markActed, getLegalActions, noLegalActions, finishAction, maybeEndHandIfOneLeft, bettingRoundShouldEnd, allPlayersSettledToHighest, advanceStreet, advanceStreetTail, resetBetsForNextStreet, burnOne, dealCommunity, clampInt, int_tmod_zero_two, int_tmod_one_two, int_tmod_two_two, int_tmod_three_two, resolveHand_phase, resolveHand_handOver, resolveHand_communityCards]

theorem huStep7Board (c1 c2 c3 c4 c6 c7 c8 c10 c12 : Card) (rest : List Card) :
    (ccStep (huState6 c1 c2 c3 c4 c6 c7 c8 c10 c12 rest)).communityCards =
      [c6, c7, c8, c10, c12] := by
  simp [huState6, ccStep, applyAction, getPlayer?, setPlayerAt, updatePlayerAt, syncLegacyFields, commitChips, canAct, isInHand, isFolded, findNextToAct, findNextToActAux, nextIndexClockwise, markActed, getLegalActions, noLegalActions, finishAction, maybeEndHandIfOneLeft, bettingRoundShouldEnd, allPlayersSettledToHighest, advanceStreet, advanceStreetTail, resetBetsForNextStreet, burnOne, dealCommunity, clampInt, int_tmod_zero_two, int_tmod_one_two, int_tmod_two_two, int_tmod_three_two, resolveHand_phase, resolveHand_handOver, resolveHand_communityCards]

theorem huStart (c1 c2 c3 c4 c5 c6 c7 c8 c9 c10 c11 c12 : Card) (rest : List Card) :
    headsUpStart (c1 :: c2 :: c3 :: c4 :: c5 :: c6 :: c7 :: c8 :: c9 :: c10 :: c11 :: c12 :: rest) =
      huState0 c1 c2 c3 c4 c5 c6 c7 c8 c9 c10 c11 c12 rest := by
  simp [headsUpStart, startHand, createInitialGameState, createPlayers, dealOffsets, dealHoleTo,
    postBlind, getPlayer?, setPlayerAt, updatePlayerAt, syncLegacyFields, commitChips, canAct,
    findNextToAct, findNextToActAux, nextIndexClockwise, huState0, List.range_succ, bot_one_name, int_tmod_zero_two, int_tmod_one_two, int_tmod_two_two, int_tmod_three_two]

theorem huPhase0 (c1 c2 c3 c4 c5 c6 c7 c8 c9 c10 c11 c12 : Card) (rest : List Card) :
    (huState0 c1 c2 c3 c4 c5 c6 c7 c8 c9 c10 c11 c12 rest).phase = Phase.preflop := rfl

theorem huPhase1 (c1 c2 c3 c4 c6 c7 c8 c9 c10 c11 c12 : Card) (rest : List Card) :
    (huState1 c1 c2 c3 c4 c6 c7 c8 c9 c10 c11 c12 rest).phase = Phase.flop := rfl

theorem huPhase2 (c1 c2 c3 c4 c6 c7 c8 c9 c10 c11 c12 : Card) (rest : List Card) :
    (huState2 c1 c2 c3 c4 c6 c7 c8 c9 c10 c11 c12 rest).phase = Phase.flop := rfl

theorem huPhase3 (c1 c2 c3 c4 c6 c7 c8 c10 c11 c12 : Card) (rest : List Card) :
    (huState3 c1 c2 c3 c4 c6 c7 c8 c10 c11 c12 rest).phase = Phase.turn := rfl

theorem huPhase4 (c1 c2 c3 c4 c6 c7 c8 c10 c11 c12 : Card) (rest : List Card) :
    (huState4 c1 c2 c3 c4 c6 c7 c8 c10 c11 c12 rest).phase = Phase.turn := rfl

theorem huPhase5 (c1 c2 c3 c4 c6 c7 c8 c10 c12 : Card) (rest : List Card) :
    (huState5 c1 c2 c3 c4 c6 c7 c8 c10 c12 rest).phase = Phase.river := rfl

theorem huPhase6 (c1 c2 c3 c4 c6 c7 c8 c10 c12 : Card) (rest : List Card) :
    (huState6 c1 c2 c3 c4 c6 c7 c8 c10 c12 rest).phase = Phase.river := rfl

-- ===========================================================================
-- Claims
-- ===========================================================================

/-- C3: from a betting state with `highestBetThisRound = 100`,
`lastFullRaiseSize = 80` and seats 0 and 1 already in the
acted-since-last-full-raise set, an all-in by seat 2 whose maximum total is
120 (raise size 20 < 80) updates `highestBetThisRound` to 120 while seats 0
and 1 stay marked as acted and `lastFullRaiseSize` / `minRaiseAmount` are
unchanged. -/
theorem claim_c3_short_all_in_does_not_reopen :
    (applyAction shortAllInState 2 Action.allIn 120).betting.highestBetThisRound = 120 ∧
    (0 : Int) ∈ (applyAction shortAllInState 2 Action.allIn 120).betting.actedSinceLastFullRaise ∧
    (1 : Int) ∈ (applyAction shortAllInState 2 Action.allIn 120).betting.actedSinceLastFullRaise ∧
    (applyAction shortAllInState 2 Action.allIn 120).betting.lastFullRaiseSize = 80 ∧
    (applyAction shortAllInState 2 Action.allIn 120).betting.minRaiseAmount = 80 := by
  decide

/-- C8: the commitment profile 100 (all-in), 200 (all-in), 200 (folded),
500 (active) yields exactly the three pots 400 / 300 / 300 with ascending
levels and the expected eligible sets; the folded player (id 2) is in no
eligible set. -/
theorem claim_c8_side_pot_example :
    computeSidePots sidePotPlayers =
      [⟨400, [0, 1, 3]⟩, ⟨300, [1, 3]⟩, ⟨300, [3]⟩] ∧
    ∀ pot ∈ computeSidePots sidePotPlayers, (2 : Int) ∉ pot.eligiblePlayers := by
  decide

/-- C7: for every 52-card shuffled deck, two players with equal stacks who
call when facing a bet and check otherwise pass through the phases
Preflop, Flop, Turn, River in order (each street once, none skipped) and end
in Showdown with the hand over and exactly 5 community cards dealt. -/
theorem claim_c7_heads_up_street_progression (deck : List Card)
    (h : deck.length = 52) :
    ccPhases (headsUpStart deck) 7 =
      [Phase.preflop, Phase.flop, Phase.flop, Phase.turn, Phase.turn,
       Phase.river, Phase.river, Phase.showdown] ∧
    (ccRun (headsUpStart deck) 7).handOver = true ∧
    (ccRun (headsUpStart deck) 7).communityCards.length = 5 := by
  rcases deck with _ | ⟨c1, deck⟩
  · simp at h
  rcases deck with _ | ⟨c2, deck⟩
  · simp at h
  rcases deck with _ | ⟨c3, deck⟩
  · simp at h
  rcases deck with _ | ⟨c4, deck⟩
  · simp at h
  rcases deck with _ | ⟨c5, deck⟩
  · simp at h
  rcases deck with _ | ⟨c6, deck⟩
  · simp at h
  rcases deck with _ | ⟨c7, deck⟩
  · simp at h
  rcases deck with _ | ⟨c8, deck⟩
  · simp at h
  rcases deck with _ | ⟨c9, deck⟩
  · simp at h
  rcases deck with _ | ⟨c10, deck⟩
  · simp at h
  rcases deck with _ | ⟨c11, deck⟩
  · simp at h
  rcases deck with _ | ⟨c12, deck⟩
  · simp at h
  refine ⟨?tr, ?ov, ?bd⟩
  · simp only [ccPhases, huStart, huStep1, huStep2, huStep3, huStep4, huStep5, huStep6,
      huStep7Phase, huPhase0, huPhase1, huPhase2, huPhase3, huPhase4, huPhase5, huPhase6]
  · simp only [ccRun, huStart, huStep1, huStep2, huStep3, huStep4, huStep5, huStep6, huStep7Over]
  · simp only [ccRun, huStart, huStep1, huStep2, huStep3, huStep4, huStep5, huStep6, huStep7Board,
      List.length_cons, List.length_nil]

/-- Witness for C7 at the canonical unshuffled deck. -/
theorem claim_c7_witness :
    createDeck.length = 52 ∧
    (ccPhases (headsUpStart createDeck) 7 =
      [Phase.preflop, Phase.flop, Phase.flop, Phase.turn, Phase.turn,
       Phase.river, Phase.river, Phase.showdown] ∧
    (ccRun (headsUpStart createDeck) 7).handOver = true ∧
    (ccRun (headsUpStart createDeck) 7).communityCards.length = 5) :=
  ⟨by decide, claim_c7_heads_up_street_progression createDeck (by decide)⟩

/-- C10: `applyAction` is an exact no-op (the state is returned unchanged)
whenever the hand is over, the seat does not exist, the seat's player is
Folded, AllIn or Eliminated, or the seat's stack is 0. -/
theorem claim_c10_no_actor_exact_no_op (s : GameState) (i : Int) (a : Action) (amt : Int)
    (h : s.handOver = true ∨ getPlayer? s i = none ∨
      ∃ p, getPlayer? s i = some p ∧
        (p.status = PlayerStatus.folded ∨ p.status = PlayerStatus.allIn ∨
         p.status = PlayerStatus.eliminated ∨ p.stack = 0)) :
    applyAction s i a amt = s := by
  unfold applyAction
  rcases h with h | h | ⟨p, hp, hst⟩
  · simp [h]
  · simp [h]
  · have hca : ¬ canAct p := by
      rcases hst with h1 | h1 | h1 | h1 <;> simp [canAct, h1]
    simp [hp, hca]

/-- Witness for C10: acting from a non-existent seat. -/
theorem claim_c10_witness : applyAction shortAllInState 5 Action.fold 0 = shortAllInState :=
  claim_c10_no_actor_exact_no_op shortAllInState 5 Action.fold 0
    (Or.inr (Or.inl (by decide)))

/-- C4: at the failing input, seat 2 is already in the
acted-since-last-full-raise set and the highest bet is 100 > 0, so a Raise by
seat 2 is rejected (only the acted-marking side effect happens) — but an
AllIn by the same closed-out seat is applied as a full raise: it drives
`highestBetThisRound` from 100 to 1020 and even resets the acted set to
`[2]`, reopening action, contrary to the claim (and to the code's own
comment that a seat in this set "cannot raise unless a full raise happens in
between"). -/
theorem claim_c4_closed_out_all_in_still_raises :
    (2 : Int) ∈ closedOutAllInState.betting.actedSinceLastFullRaise ∧
    closedOutAllInState.betting.highestBetThisRound = 100 ∧
    (getLegalActions closedOutAllInState 2).canRaise = false ∧
    applyAction closedOutAllInState 2 Action.raise 1020 = markActed closedOutAllInState 2 ∧
    (applyAction closedOutAllInState 2 Action.allIn 1020).betting.highestBetThisRound = 1020 ∧
    (applyAction closedOutAllInState 2 Action.allIn 1020).betting.actedSinceLastFullRaise
      = [2] := by
  decide

/-- C5 counterexample: the pre-flop sentinel has tier 0, which is the SAME
tier as a real High Card hand (not strictly below it), and under
`compareHandsResults` the sentinel TIES with that High Card hand in both
argument orders instead of losing to it. -/
theorem claim_c5_counterexample :
    evaluateHand [⟨Rank.nA, Suit.H⟩, ⟨Rank.nK, Suit.S⟩] [] = ⟨0, [], "Waiting..."⟩ ∧
    (evaluate5CardHand highCardHand).tier = 0 ∧
    ¬ ((evaluateHand [⟨Rank.nA, Suit.H⟩, ⟨Rank.nK, Suit.S⟩] []).tier <
        (evaluate5CardHand highCardHand).tier) ∧
    compareHandsResults (evaluateHand [⟨Rank.nA, Suit.H⟩, ⟨Rank.nK, Suit.S⟩] [])
      (evaluate5CardHand highCardHand) = 0 ∧
    compareHandsResults (evaluate5CardHand highCardHand)
      (evaluateHand [⟨Rank.nA, Suit.H⟩, ⟨Rank.nK, Suit.S⟩] []) = 0 := by
  decide

/-- C5 amended: with fewer than 5 total cards `evaluateHand` returns the
sentinel `{ tier := 0, kickers := [], name := "Waiting..." }`; its tier 0 is
the High Card tier, not strictly below all real tiers.  Under the comparison
rule the sentinel loses to every hand of tier ≥ 1 but ties (in both
directions) with every tier-0 hand. -/
theorem claim_c5_incomplete_sentinel (hole comm : List Card)
    (h : (hole ++ comm).length < 5) :
    evaluateHand hole comm = ⟨0, [], "Waiting..."⟩ ∧
    (∀ b : HandResult, 1 ≤ b.tier →
      compareHandsResults (evaluateHand hole comm) b = -1 ∧
      compareHandsResults b (evaluateHand hole comm) = 1) ∧
    (∀ b : HandResult, b.tier = 0 →
      compareHandsResults (evaluateHand hole comm) b = 0) := by
  have he : evaluateHand hole comm = ⟨0, [], "Waiting..."⟩ := by
    unfold evaluateHand
    simp only [if_pos h]
  refine ⟨he, ?lose, ?tie⟩
  · intro b hb
    rw [he]
    constructor
    · show (if (0 : Int) > b.tier then (1 : Int)
        else if b.tier > 0 then -1 else compareKickers [] b.kickers) = -1
      rw [if_neg (by omega), if_pos (by omega)]
    · show (if b.tier > 0 then (1 : Int)
        else if (0 : Int) > b.tier then -1 else compareKickers b.kickers []) = 1
      rw [if_pos (by omega)]
  · intro b hb
    rw [he]
    show (if (0 : Int) > b.tier then (1 : Int)
      else if b.tier > 0 then -1 else compareKickers [] b.kickers) = 0
    rw [if_neg (by omega), if_neg (by omega)]
    rfl

/-- Witness for C5 amended. -/
theorem claim_c5_incomplete_sentinel_witness :
    (([⟨Rank.nA, Suit.H⟩, ⟨Rank.nK, Suit.S⟩] : List Card) ++ []).length < 5 ∧
    evaluateHand [⟨Rank.nA, Suit.H⟩, ⟨Rank.nK, Suit.S⟩] [] = ⟨0, [], "Waiting..."⟩ :=
  ⟨by decide,
   (claim_c5_incomplete_sentinel [⟨Rank.nA, Suit.H⟩, ⟨Rank.nK, Suit.S⟩] [] (by decide)).1⟩

/-- Sorting a hand whose rank multiset matches a given sorted target list of
rank values yields exactly that target. -/
theorem sortCardsDesc_map_rank_eq (cards : List Card) (target : List Int)
    (hperm : (cards.map (fun c => getRankValue c.rank)).Perm target)
    (hsorted : target.Sorted (fun a b : Int => a ≥ b)) :
    (sortCardsDesc cards).map (fun c => getRankValue c.rank) = target := by
  haveI : IsAntisymm Int (fun a b : Int => a ≥ b) := ⟨fun _ _ h1 h2 => le_antisymm h2 h1⟩
  refine List.eq_of_perm_of_sorted
    (((List.perm_insertionSort rankDescOrder cards).map _).trans hperm) ?_ hsorted
  exact List.pairwise_map.2 (List.sorted_insertionSort rankDescOrder cards)

/-- A card list with exactly five mapped rank values is a five-card list. -/
theorem map_rank_eq_five (L : List Card) (v1 v2 v3 v4 v5 : Int)
    (h : L.map (fun c => getRankValue c.rank) = [v1, v2, v3, v4, v5]) :
    ∃ a b c d e, L = [a, b, c, d, e] ∧ getRankValue a.rank = v1 ∧
      getRankValue b.rank = v2 ∧ getRankValue c.rank = v3 ∧
      getRankValue d.rank = v4 ∧ getRankValue e.rank = v5 := by
  rcases L with _ | ⟨a, L⟩
  · simp at h
  rcases L with _ | ⟨b, L⟩
  · simp at h
  rcases L with _ | ⟨c, L⟩
  · simp at h
  rcases L with _ | ⟨d, L⟩
  · simp at h
  rcases L with _ | ⟨e, L⟩
  · simp at h
  rcases L with _ | ⟨f, L⟩
  · simp only [List.map_cons, List.map_nil, List.cons.injEq, and_true] at h
    exact ⟨a, b, c, d, e, rfl, h.1, h.2.1, h.2.2.1, h.2.2.2.1, h.2.2.2.2⟩
  · simp at h

theorem rankGroups_wheel :
    rankGroups [14, 5, 4, 3, 2] = [(14, 1), (5, 1), (4, 1), (3, 1), (2, 1)] := by decide

theorem rankGroups_sixHigh :
    rankGroups [6, 5, 4, 3, 2] = [(6, 1), (5, 1), (4, 1), (3, 1), (2, 1)] := by decide

/-- The classification of a sorted non-flush wheel. -/
theorem evalSorted_wheel (a b c d e : Card)
    (ha : getRankValue a.rank = 14) (hb : getRankValue b.rank = 5)
    (hc : getRankValue c.rank = 4) (hd : getRankValue d.rank = 3)
    (he : getRankValue e.rank = 2)
    (hs : allSameSuit [a.suit, b.suit, c.suit, d.suit, e.suit] = false) :
    evalSorted [a, b, c, d, e] = ⟨4, [5, 4, 3, 2, 1], "Straight"⟩ := by
  unfold evalSorted
  simp [ha, hb, hc, hd, he, hs, isConsecutive, isWheelRanks, rankGroups_wheel]

/-- The classification of a sorted 6-high straight: a straight flush when
suited, a straight otherwise; the kickers are [6, 5, 4, 3, 2] either way. -/
theorem evalSorted_sixHigh (a b c d e : Card)
    (ha : getRankValue a.rank = 6) (hb : getRankValue b.rank = 5)
    (hc : getRankValue c.rank = 4) (hd : getRankValue d.rank = 3)
    (he : getRankValue e.rank = 2) :
    evalSorted [a, b, c, d, e] = ⟨8, [6, 5, 4, 3, 2], "Straight Flush"⟩ ∨
    evalSorted [a, b, c, d, e] = ⟨4, [6, 5, 4, 3, 2], "Straight"⟩ := by
  rcases hsv : allSameSuit [a.suit, b.suit, c.suit, d.suit, e.suit] with _ | _
  · right
    unfold evalSorted
    simp [ha, hb, hc, hd, he, hsv, isConsecutive, isWheelRanks, rankGroups_sixHigh]
  · left
    unfold evalSorted
    simp [ha, hb, hc, hd, he, hsv, isConsecutive, isWheelRanks, rankGroups_sixHigh]

/-- C6 counterexample: the SUITED wheel A-2-3-4-5 of hearts (a 5-card hand
whose ranks are the wheel) is classified as a Straight Flush with tier 8, not
as a straight with tier 4, and it BEATS the 6-high straight instead of losing
to it. -/
theorem claim_c6_counterexample :
    ((suitedWheel.map (fun c => getRankValue c.rank)).Perm [14, 5, 4, 3, 2]) ∧
    evaluate5CardHand suitedWheel = ⟨8, [5, 4, 3, 2, 1], "Straight Flush"⟩ ∧
    (evaluate5CardHand suitedWheel).tier ≠ 4 ∧
    compareHandsResults (evaluate5CardHand suitedWheel)
      (evaluate5CardHand sixHighStraight) = 1 := by
  decide

/-- C6 amended: every NON-FLUSH 5-card wheel (ranks A-2-3-4-5, suits not all
equal) is classified as a straight with kickers exactly [5, 4, 3, 2, 1]; it
beats every tier-0 (High Card) hand and loses to every 6-high straight
2-3-4-5-6 (suited or not).  A suited wheel is instead a Straight Flush with
the same kickers. -/
theorem claim_c6_wheel_straight (cards : List Card)
    (hperm : (cards.map (fun c => getRankValue c.rank)).Perm [14, 5, 4, 3, 2])
    (hsuit : ¬ ∃ su, ∀ c ∈ cards, c.suit = su) :
    evaluate5CardHand cards = ⟨4, [5, 4, 3, 2, 1], "Straight"⟩ ∧
    (∀ cs2 : List Card, (evaluate5CardHand cs2).tier = 0 →
      compareHandsResults (evaluate5CardHand cards) (evaluate5CardHand cs2) = 1) ∧
    (∀ cs3 : List Card,
      (cs3.map (fun c => getRankValue c.rank)).Perm [6, 5, 4, 3, 2] →
      compareHandsResults (evaluate5CardHand cards) (evaluate5CardHand cs3) = -1) := by
  have hmap := sortCardsDesc_map_rank_eq cards [14, 5, 4, 3, 2] hperm (by decide)
  obtain ⟨a, b, c, d, e, hLeq, ha, hb, hc, hd, he⟩ :=
    map_rank_eq_five (sortCardsDesc cards) 14 5 4 3 2 hmap
  have hwheel : evaluate5CardHand cards = ⟨4, [5, 4, 3, 2, 1], "Straight"⟩ := by
    unfold evaluate5CardHand
    rw [hLeq]
    refine evalSorted_wheel a b c d e ha hb hc hd he ?_
    rcases hsv : allSameSuit [a.suit, b.suit, c.suit, d.suit, e.suit] with _ | _
    · rfl
    · exfalso
      apply hsuit
      refine ⟨a.suit, fun x hx => ?_⟩
      have hx2 : x ∈ sortCardsDesc cards := by
        unfold sortCardsDesc
        exact (List.perm_insertionSort rankDescOrder cards).symm.subset hx
      rw [hLeq] at hx2
      have hall := hsv
      unfold allSameSuit at hall
      simp only [List.all_cons, List.all_nil, Bool.and_eq_true, decide_eq_true_eq,
        Bool.and_true] at hall
      simp only [List.mem_cons, List.not_mem_nil, or_false] at hx2
      rcases hx2 with h | h | h | h | h
      · subst h; rfl
      · subst h; exact hall.1
      · subst h; exact hall.2.1
      · subst h; exact hall.2.2.1
      · subst h; exact hall.2.2.2
  refine ⟨hwheel, ?hc2, ?hc3⟩
  · intro cs2 ht
    rw [hwheel]
    show (if (4 : Int) > (evaluate5CardHand cs2).tier then (1 : Int)
      else if (evaluate5CardHand cs2).tier > 4 then -1
      else compareKickers [5, 4, 3, 2, 1] (evaluate5CardHand cs2).kickers) = 1
    rw [if_pos (by omega)]
  · intro cs3 hp3
    have hmap3 := sortCardsDesc_map_rank_eq cs3 [6, 5, 4, 3, 2] hp3 (by decide)
    obtain ⟨a3, b3, c3, d3, e3, hLeq3, ha3, hb3, hc3, hd3, he3⟩ :=
      map_rank_eq_five (sortCardsDesc cs3) 6 5 4 3 2 hmap3
    have h6 : evaluate5CardHand cs3 = ⟨8, [6, 5, 4, 3, 2], "Straight Flush"⟩ ∨
        evaluate5CardHand cs3 = ⟨4, [6, 5, 4, 3, 2], "Straight"⟩ := by
      unfold evaluate5CardHand
      rw [hLeq3]
      exact evalSorted_sixHigh a3 b3 c3 d3 e3 ha3 hb3 hc3 hd3 he3
    rcases h6 with h6 | h6 <;> rw [hwheel, h6] <;> decide

/-- Witness for C6 amended at an offsuit wheel. -/
theorem claim_c6_wheel_straight_witness :
    evaluate5CardHand
      [⟨Rank.nA, Suit.H⟩, ⟨Rank.n3, Suit.C⟩, ⟨Rank.n2, Suit.S⟩, ⟨Rank.n5, Suit.D⟩,
       ⟨Rank.n4, Suit.H⟩] = ⟨4, [5, 4, 3, 2, 1], "Straight"⟩ ∧
    compareHandsResults
      (evaluate5CardHand
        [⟨Rank.nA, Suit.H⟩, ⟨Rank.n3, Suit.C⟩, ⟨Rank.n2, Suit.S⟩, ⟨Rank.n5, Suit.D⟩,
         ⟨Rank.n4, Suit.H⟩])
      (evaluate5CardHand highCardHand) = 1 ∧
    compareHandsResults
      (evaluate5CardHand
        [⟨Rank.nA, Suit.H⟩, ⟨Rank.n3, Suit.C⟩, ⟨Rank.n2, Suit.S⟩, ⟨Rank.n5, Suit.D⟩,
         ⟨Rank.n4, Suit.H⟩])
      (evaluate5CardHand sixHighStraight) = -1 :=
  ⟨(claim_c6_wheel_straight
      [⟨Rank.nA, Suit.H⟩, ⟨Rank.n3, Suit.C⟩, ⟨Rank.n2, Suit.S⟩, ⟨Rank.n5, Suit.D⟩,
       ⟨Rank.n4, Suit.H⟩] (by decide) (by decide)).1,
   (claim_c6_wheel_straight
      [⟨Rank.nA, Suit.H⟩, ⟨Rank.n3, Suit.C⟩, ⟨Rank.n2, Suit.S⟩, ⟨Rank.n5, Suit.D⟩,
       ⟨Rank.n4, Suit.H⟩] (by decide) (by decide)).2.1 highCardHand (by decide),
   (claim_c6_wheel_straight
      [⟨Rank.nA, Suit.H⟩, ⟨Rank.n3, Suit.C⟩, ⟨Rank.n2, Suit.S⟩, ⟨Rank.n5, Suit.D⟩,
       ⟨Rank.n4, Suit.H⟩] (by decide) (by decide)).2.2 sixHighStraight (by decide)⟩

/-- C1 counterexample: seat 1 faces a bet of 100 with a street bet of 0, so
checking is illegal; the rejected action nevertheless comes back with seat 1
newly inserted into `actedSinceLastFullRaise` and with `hasActedThisRound`
flipped to true, so the returned state is NOT equal to the input state. -/
theorem claim_c1_counterexample :
    applyAction checkFacingBetState 1 Action.check 0 ≠ checkFacingBetState ∧
    (applyAction checkFacingBetState 1 Action.check 0).betting.hasActedThisRound = true ∧
    checkFacingBetState.betting.hasActedThisRound = false ∧
    (1 : Int) ∈ (applyAction checkFacingBetState 1 Action.check 0).betting.actedSinceLastFullRaise ∧
    (1 : Int) ∉ checkFacingBetState.betting.actedSinceLastFullRaise := by
  decide

/-- C1 amended: a rejected illegal action (checking while facing a bet,
betting while a bet stands, raising while closed out, a non-all-in raise
clamped below the minimum raise, or an all-in that cannot exceed the highest
bet) returns `markActed s i`: the input state with seat `i` inserted into the
acted-since-last-full-raise set and `hasActedThisRound` set to true, but with
every player field, the pots, the cards and all other betting fields
unchanged.  (Acting out of turn is not checked at all and is not rejected.) -/
theorem claim_c1_illegal_reject (s : GameState) (i : Int) (p : Player) (amt : Int)
    (hHO : s.handOver = false) (hp : getPlayer? s i = some p) (hca : canAct p) :
    ((0 < s.betting.highestBetThisRound - p.currentBet →
        applyAction s i Action.check amt = markActed s i) ∧
     (s.betting.highestBetThisRound ≠ 0 →
        applyAction s i Action.bet amt = markActed s i) ∧
     ((getLegalActions s i).canRaise = false →
        applyAction s i Action.raise amt = markActed s i) ∧
     ((getLegalActions s i).canRaise = true →
        clampInt amt (s.betting.highestBetThisRound + 1) (p.currentBet + p.stack) <
          p.currentBet + p.stack →
        clampInt amt (s.betting.highestBetThisRound + 1) (p.currentBet + p.stack) -
          s.betting.highestBetThisRound < s.betting.lastFullRaiseSize →
        applyAction s i Action.raise amt = markActed s i) ∧
     (p.currentBet + p.stack ≤ s.betting.highestBetThisRound →
        applyAction s i Action.allIn amt = markActed s i)) ∧
    (markActed s i).players = s.players ∧
    (markActed s i).pots = s.pots ∧
    (markActed s i).phase = s.phase ∧
    (markActed s i).deck = s.deck ∧
    (markActed s i).communityCards = s.communityCards ∧
    (markActed s i).betting.highestBetThisRound = s.betting.highestBetThisRound ∧
    (markActed s i).betting.minRaiseAmount = s.betting.minRaiseAmount ∧
    (markActed s i).betting.lastFullRaiseSize = s.betting.lastFullRaiseSize ∧
    (markActed s i).betting.hasActedThisRound = true := by
  refine ⟨⟨?chk, ?bet, ?rse, ?rsz, ?aln⟩, rfl, rfl, rfl, rfl, rfl, rfl, rfl, rfl, rfl⟩
  case chk =>
    intro h
    have hmax : max 0 (s.betting.highestBetThisRound - p.currentBet) =
        s.betting.highestBetThisRound - p.currentBet := max_eq_right (le_of_lt h)
    have hne : s.betting.highestBetThisRound - p.currentBet ≠ 0 := by omega
    simp [applyAction, hHO, hp, hca, getLegalActions, hmax, hne]
  case bet =>
    intro h
    simp [applyAction, hHO, hp, hca, getLegalActions, h]
  case rse =>
    intro hcr
    simp [applyAction, hHO, hp, hca, raiseOrAllInBranch, hcr]
  case rsz =>
    intro hcr hlt hmin
    have h1 : ¬ (p.currentBet + p.stack ≤
        clampInt amt (s.betting.highestBetThisRound + 1) (p.currentBet + p.stack)) :=
      not_le.mpr hlt
    have h2 : ¬ (clampInt amt (s.betting.highestBetThisRound + 1) (p.currentBet + p.stack) ≤
        s.betting.highestBetThisRound) := by
      simp only [clampInt]
      omega
    have h3 : ¬ (s.betting.lastFullRaiseSize ≤
        clampInt amt (s.betting.highestBetThisRound + 1) (p.currentBet + p.stack) -
          s.betting.highestBetThisRound) := by omega
    simp [applyAction, hHO, hp, hca, raiseOrAllInBranch, markActed, hcr, h1, h2, h3]
  case aln =>
    intro h
    have h2 : clampInt amt (s.betting.highestBetThisRound + 1) (p.currentBet + p.stack) =
        s.betting.highestBetThisRound + 1 := by
      simp only [clampInt]
      omega
    simp [applyAction, hHO, hp, hca, raiseOrAllInBranch, h2, h]

/-- Witness for C1 amended: the rejected check at the counterexample state. -/
theorem claim_c1_illegal_reject_witness :
    applyAction checkFacingBetState 1 Action.check 0 = markActed checkFacingBetState 1 :=
  (claim_c1_illegal_reject checkFacingBetState 1 (mkSeat 1 1000 0 0 PlayerStatus.active) 0
      (by decide) (by decide) (by decide)).1.1 (by decide)

theorem sum_map_add_int (f g : Contributor → Int) (C : List Contributor) :
    (C.map (fun c => f c + g c)).sum = (C.map f).sum + (C.map g).sum := by
  induction C with
  | nil => simp
  | cons c C ih =>
    simp only [List.map_cons, List.sum_cons, ih]
    ring

theorem mul_filter_length (k : Int) (P : Contributor → Prop) [DecidablePred P]
    (C : List Contributor) :
    k * (((C.filter (fun c => decide (P c))).length : Nat) : Int)
      = (C.map (fun c => if P c then k else 0)).sum := by
  induction C with
  | nil => simp
  | cons c C ih =>
    by_cases h : P c
    · simp [List.filter_cons, h]
      rw [← ih]
      ring
    · simp [List.filter_cons, h]
      rw [← ih]

/-- The pot amounts of `potsAux` redistribute into per-contributor layer
contributions. -/
theorem sum_potsAux (C : List Contributor) :
    ∀ (L : List Int) (prev : Int),
      ((potsAux C prev L).map (fun pt => pt.amount)).sum
        = (C.map (fun c => levelContrib prev L c.committed)).sum := by
  intro L
  induction L with
  | nil =>
    intro prev
    simp [potsAux, levelContrib]
  | cons l rest ih =>
    intro prev
    simp only [potsAux, List.map_cons, List.sum_cons, levelContrib]
    rw [ih l, mul_filter_length (l - prev) (fun c => l ≤ c.committed) C, ← sum_map_add_int]

/-- Below the chain, a contributor collects nothing. -/
theorem levelContrib_of_le (L : List Int) :
    ∀ (x v : Int), List.Chain (· < ·) x L → v ≤ x → levelContrib x L v = 0 := by
  induction L with
  | nil => intro x v _ _; rfl
  | cons l rest ih =>
    intro x v hch hv
    rcases List.chain_cons.1 hch with ⟨hxl, hch2⟩
    rw [levelContrib, if_neg (by omega), zero_add]
    exact ih l v hch2 (by omega)

/-- Telescoping: a contributor whose commitment is one of the (strictly
ascending) levels collects exactly its commitment minus the base. -/
theorem levelContrib_mem (L : List Int) :
    ∀ (prev v : Int), List.Chain (· < ·) prev L → v ∈ L →
      levelContrib prev L v = v - prev := by
  induction L with
  | nil =>
    intro prev v _ hv
    simp at hv
  | cons l rest ih =>
    intro prev v hch hv
    rcases List.chain_cons.1 hch with ⟨hpl, hch2⟩
    rcases List.mem_cons.1 hv with rfl | hv2
    · rw [levelContrib, if_pos (le_refl v), levelContrib_of_le rest v v hch2 (le_refl v)]
      ring
    · have hlv : l < v := by
        have hp := List.chain_iff_pairwise.1 hch2
        exact List.rel_of_pairwise_cons hp hv2
      rw [levelContrib, if_pos (le_of_lt hlv), ih l v hch2 hv2]
      ring

/-- Every slice of `potsAux` over a strictly ascending level list whose
levels all have a committed witness is strictly positive. -/
theorem potsAux_pos (C : List Contributor) :
    ∀ (L : List Int) (prev : Int), List.Chain (· < ·) prev L →
      (∀ l ∈ L, ∃ c ∈ C, l ≤ c.committed) →
      ∀ pt ∈ potsAux C prev L, 0 < pt.amount := by
  intro L
  induction L with
  | nil =>
    intro prev _ _ pt hpt
    simp [potsAux] at hpt
  | cons l rest ih =>
    intro prev hch hwit pt hpt
    rcases List.chain_cons.1 hch with ⟨hpl, hch2⟩
    rcases List.mem_cons.1 hpt with rfl | hpt2
    · obtain ⟨c, hc, hcl⟩ := hwit l (List.mem_cons_self l rest)
      have hmem : c ∈ C.filter (fun c => decide (l ≤ c.committed)) :=
        List.mem_filter.2 ⟨hc, by simp [hcl]⟩
      have hlen : 0 < (C.filter (fun c => decide (l ≤ c.committed))).length :=
        List.length_pos_of_mem hmem
    -- amount = (l - prev) * length with both factors positive
      exact mul_pos (by omega) (by exact_mod_cast hlen)
    · exact ih l hch2 (fun x hx => hwit x (List.mem_cons_of_mem l hx)) pt hpt2

/-- A non-folded contributor is eligible in the pot at its own level. -/
theorem potsAux_mem_eligible (C : List Contributor) :
    ∀ (L : List Int) (prev : Int) (c : Contributor), c ∈ C → c.folded = false →
      c.committed ∈ L → ∃ pt ∈ potsAux C prev L, c.id ∈ pt.eligiblePlayers := by
  intro L
  induction L with
  | nil =>
    intro prev c _ _ hv
    simp at hv
  | cons l rest ih =>
    intro prev c hc hf hv
    rcases List.mem_cons.1 hv with hcl | hv2
    · refine ⟨_, List.mem_cons_self _ _, ?_⟩
      refine List.mem_map.2 ⟨c, List.mem_filter.2 ⟨List.mem_filter.2 ⟨hc, ?_⟩, ?_⟩, rfl⟩
      · simp [hcl]
      · simp [hf]
    · obtain ⟨pt, hpt, hmem⟩ := ih l c hc hf hv2
      exact ⟨pt, List.mem_cons_of_mem _ hpt, hmem⟩

theorem filter_pos_sum (players : List Player)
    (hnn : ∀ p ∈ players, 0 ≤ p.totalCommitted) :
    ((players.filter (fun p => decide (0 < p.totalCommitted))).map
        (fun p => p.totalCommitted)).sum
      = (players.map (fun p => p.totalCommitted)).sum := by
  induction players with
  | nil => rfl
  | cons q qs ih =>
    have hq := hnn q (List.mem_cons_self q qs)
    have ih2 := ih (fun p hp => hnn p (List.mem_cons_of_mem q hp))
    by_cases h : 0 < q.totalCommitted
    · simp [List.filter_cons, h, ih2]
    · have hz : q.totalCommitted = 0 := by omega
      simp [List.filter_cons, h, ih2, hz]

theorem sortedLevels_mem (C : List Contributor) {v : Int} :
    v ∈ sortedLevels C ↔ ∃ c, c ∈ C ∧ c.committed = v := by
  unfold sortedLevels
  rw [List.mem_insertionSort, List.mem_dedup, List.mem_map]

/-- The level list is a strictly increasing chain above 0 when every
commitment is positive. -/
theorem sortedLevels_chain (C : List Contributor) (hpos : ∀ c ∈ C, 0 < c.committed) :
    List.Chain (· < ·) 0 (sortedLevels C) := by
  have hsorted : (sortedLevels C).Sorted (fun a b : Int => a ≤ b) := by
    unfold sortedLevels
    exact List.sorted_insertionSort _ _
  have hnodup : (sortedLevels C).Nodup := by
    unfold sortedLevels
    exact (List.perm_insertionSort _ _).nodup_iff.2 (List.nodup_dedup _)
  have hlt : (sortedLevels C).Pairwise (· < ·) :=
    List.Pairwise.imp₂ (fun _ _ h1 h2 => lt_of_le_of_ne h1 h2) hsorted hnodup
  rw [List.chain_iff_pairwise]
  refine List.pairwise_cons.2 ⟨?_, hlt⟩
  intro l hl
  obtain ⟨c, hc, hcl⟩ := (sortedLevels_mem C).1 hl
  have := hpos c hc
  omega

/-- The pots of `computeSidePots`-shaped data for positive commitments:
every slice is positive, so the final zero-amount filter removes nothing. -/
theorem potsAux_filter_noop (C : List Contributor) (hpos : ∀ c ∈ C, 0 < c.committed) :
    (potsAux C 0 (sortedLevels C)).filter (fun pt => decide (0 < pt.amount))
      = potsAux C 0 (sortedLevels C) := by
  have hchain : List.Chain (· < ·) 0 (sortedLevels C) := sortedLevels_chain C hpos
  have hwit : ∀ l ∈ sortedLevels C, ∃ c ∈ C, l ≤ c.committed := by
    intro l hl
    obtain ⟨c, hc, hcl⟩ := (sortedLevels_mem C).1 hl
    exact ⟨c, hc, le_of_eq hcl.symm⟩
  apply List.filter_eq_self.2
  intro pt hpt
  exact decide_eq_true (potsAux_pos C (sortedLevels C) 0 hchain hwit pt hpt)

/-- C2: for non-negative commitments the computed pot amounts sum to exactly
the total of all players' `totalCommitted`, and every non-folded player with
a positive commitment is eligible in at least one computed pot (the one at
its own level). -/
theorem claim_c2_pot_partition (players : List Player)
    (hnn : ∀ p ∈ players, 0 ≤ p.totalCommitted) :
    ((computeSidePots players).map (fun pt => pt.amount)).sum
      = (players.map (fun p => p.totalCommitted)).sum ∧
    ∀ p ∈ players, 0 < p.totalCommitted → p.status ≠ PlayerStatus.folded →
      ∃ pt ∈ computeSidePots players, p.id ∈ pt.eligiblePlayers := by
  unfold computeSidePots
  by_cases hemp : ((players.filter (fun p => decide (0 < p.totalCommitted))).map
      (fun p => Contributor.mk p.id p.totalCommitted
        (decide (p.status = PlayerStatus.folded)))).isEmpty
  · rw [if_pos hemp]
    have hnil : players.filter (fun p => decide (0 < p.totalCommitted)) = [] := by
      rcases hx : players.filter (fun p => decide (0 < p.totalCommitted)) with _ | ⟨a, b⟩
      · exact hx
      · rw [hx] at hemp; simp [List.isEmpty] at hemp
    have hzero : ∀ p ∈ players, p.totalCommitted = 0 := by
      intro p hp
      by_contra hne
      have hpos : 0 < p.totalCommitted := lt_of_le_of_ne (hnn p hp) (Ne.symm hne)
      have hmem : p ∈ players.filter (fun p => decide (0 < p.totalCommitted)) :=
        List.mem_filter.2 ⟨hp, by simp [hpos]⟩
      rw [hnil] at hmem
      simp at hmem
    constructor
    · rw [List.map_nil, List.sum_nil]
      symm
      apply List.sum_eq_zero
      intro x hx
      obtain ⟨p, hp, rfl⟩ := List.mem_map.1 hx
      exact hzero p hp
    · intro p hp hpos _
      exact absurd (hzero p hp) (by omega)
  · rw [if_neg hemp]
    have hposC : ∀ c ∈ (players.filter (fun p => decide (0 < p.totalCommitted))).map
        (fun p => Contributor.mk p.id p.totalCommitted
          (decide (p.status = PlayerStatus.folded))), 0 < c.committed := by
      intro c hc
      obtain ⟨p, hp, rfl⟩ := List.mem_map.1 hc
      have := (List.mem_filter.1 hp).2
      simpa using this
    rw [potsAux_filter_noop _ hposC]
    have hchain := sortedLevels_chain _ hposC
    constructor
    · rw [sum_potsAux]
      have hcongr : ∀ c ∈ (players.filter (fun p => decide (0 < p.totalCommitted))).map
          (fun p => Contributor.mk p.id p.totalCommitted
            (decide (p.status = PlayerStatus.folded))),
          levelContrib 0 (sortedLevels ((players.filter
            (fun p => decide (0 < p.totalCommitted))).map
            (fun p => Contributor.mk p.id p.totalCommitted
              (decide (p.status = PlayerStatus.folded))))) c.committed = c.committed := by
        intro c hc
        rw [levelContrib_mem _ 0 c.committed hchain
          ((sortedLevels_mem _).2 ⟨c, hc, rfl⟩)]
        ring
      rw [List.map_congr_left hcongr, List.map_map]
      have : ((fun c : Contributor => c.committed) ∘
          (fun p : Player => Contributor.mk p.id p.totalCommitted
            (decide (p.status = PlayerStatus.folded))))
          = fun p : Player => p.totalCommitted := rfl
      rw [this]
      exact filter_pos_sum players hnn
    · intro p hp hpos hnf
      have hc : Contributor.mk p.id p.totalCommitted (decide (p.status = PlayerStatus.folded))
          ∈ (players.filter (fun q => decide (0 < q.totalCommitted))).map
            (fun q => Contributor.mk q.id q.totalCommitted
              (decide (q.status = PlayerStatus.folded))) :=
        List.mem_map.2 ⟨p, List.mem_filter.2 ⟨hp, by simp [hpos]⟩, rfl⟩
      exact potsAux_mem_eligible _ _ 0 _ hc (by simp [hnf])
        ((sortedLevels_mem _).2 ⟨_, hc, rfl⟩)

theorem syncLegacyFields_stack (p : Player) : (syncLegacyFields p).stack = p.stack := rfl

theorem commitChips_stack (p : Player) (amt : Int) :
    (commitChips p amt).1.stack = p.stack - min p.stack (max 0 amt) := by
  unfold commitChips
  dsimp only
  split <;> rfl

theorem commitChips_committed (p : Player) (amt : Int) :
    (commitChips p amt).2 = min p.stack (max 0 amt) := rfl

theorem commitChips_allin (p : Player) (amt : Int) (hact : p.status = PlayerStatus.active)
    (hz : (commitChips p amt).1.stack = 0) :
    (commitChips p amt).1.status = PlayerStatus.allIn := by
  rw [commitChips_stack] at hz
  unfold commitChips
  dsimp only
  rw [if_pos ⟨hz, hact⟩]
  rfl

theorem getPlayer?_mem (s : GameState) (i : Int) (p : Player) (h : getPlayer? s i = some p) :
    p ∈ s.players := by
  unfold getPlayer? at h
  split at h
  · exact absurd h (by simp)
  · exact List.get?_mem h

theorem stacksNonneg_setPlayerAt (s : GameState) (i : Int) (p' : Player)
    (h : StacksNonneg s) (hp : 0 ≤ p'.stack) : StacksNonneg (setPlayerAt s i p') := by
  unfold setPlayerAt
  split
  · exact h
  · intro q hq
    rcases List.mem_or_eq_of_mem_set hq with h1 | h1
    · exact h q h1
    · rw [h1]; exact hp

theorem stacksNonneg_betting (s : GameState) (b : BettingState) (h : StacksNonneg s) :
    StacksNonneg { s with betting := b } := h

theorem stacksNonneg_map (s : GameState) (f : Player → Player)
    (hf : ∀ q, 0 ≤ q.stack → 0 ≤ (f q).stack) (h : StacksNonneg s) :
    StacksNonneg { s with players := s.players.map f } := by
  intro q hq
  obtain ⟨q0, hq0, rfl⟩ := List.mem_map.1 hq
  exact hf q0 (h q0 hq0)

theorem stacksNonneg_updateFirstById (s : GameState) (pid : Int) (f : Player → Player)
    (hf : ∀ q, 0 ≤ q.stack → 0 ≤ (f q).stack) (h : StacksNonneg s) :
    StacksNonneg (updateFirstById s pid f) := by
  unfold updateFirstById
  split
  · exact h
  · intro q hq
    rcases List.mem_or_eq_of_mem_set hq with h1 | h1
    · exact h q h1
    · rw [h1]
      apply hf
      rw [List.getD_eq_getElem?_getD]
      rcases hg : s.players[_]? with _ | q0
      · exact le_refl 0
      · exact h q0 (List.getElem?_mem hg)

theorem stacksNonneg_foldl {α β : Type} (P : β → Prop) (f : β → α → β)
    (l : List α) :
    ∀ (s : β), P s → (∀ s' a, a ∈ l → P s' → P (f s' a)) → P (List.foldl f s l) := by
  induction l with
  | nil => intro s h _; exact h
  | cons a l ih =>
    intro s h hstep
    exact ih (f s a) (hstep s a (List.mem_cons_self a l) h)
      (fun s' b hb => hstep s' b (List.mem_cons_of_mem a hb))

theorem stacksNonneg_oddChipLoop (wids : List Int) :
    ∀ (fuel : Nat) (s : GameState) (idx rem : Int), StacksNonneg s →
      StacksNonneg (oddChipLoop wids s idx rem fuel) := by
  intro fuel
  induction fuel with
  | zero => intro s _ _ h; exact h
  | succ fuel ih =>
    intro s idx rem h
    unfold oddChipLoop
    split
    · rcases hg : getPlayer? s idx with _ | sp
      · simp only [hg]
        exact ih _ _ _ h
      · simp only [hg]
        split
        · refine ih _ _ _ (stacksNonneg_setPlayerAt s idx _ h ?_)
          rw [syncLegacyFields_stack]
          have := h sp (getPlayer?_mem s idx sp hg)
          dsimp only
          omega
        · exact ih _ _ _ h
    · exact h

theorem stacksNonneg_awardPot (s : GameState) (pot : Pot) (d : Int)
    (hpot : 0 ≤ pot.amount) (h : StacksNonneg s) : StacksNonneg (awardPot s pot d).1 := by
  have hbase : ∀ n : Nat, 0 ≤ Int.fdiv pot.amount (n : Int) :=
    fun n => Int.fdiv_nonneg hpot (Int.natCast_nonneg n)
  unfold awardPot
  dsimp only
  rcases heligible : pot.eligiblePlayers.filterMap
      (fun pid => s.players.find? (fun p => decide (p.id = pid))) with _ | ⟨e, es⟩ <;>
    rw [heligible]
  · exact h
  · dsimp only
    have h1 : ∀ (s0 : GameState), StacksNonneg s0 → ∀ (wids : List Int) (k : Int), 0 ≤ k →
        StacksNonneg (wids.foldl (fun acc wid => updateFirstById acc wid
          (fun q => syncLegacyFields { q with stack := q.stack + k })) s0) := by
      intro s0 h0 wids k hk
      refine stacksNonneg_foldl StacksNonneg _ wids s0 h0 ?_
      intro s' a _ hs'
      refine stacksNonneg_updateFirstById s' a _ ?_ hs'
      intro q hq
      rw [syncLegacyFields_stack]
      dsimp only
      omega
    have h2 : ∀ (s0 : GameState), StacksNonneg s0 → ∀ wids : List Int,
        StacksNonneg (wids.foldl (fun acc wid => updateFirstById acc wid
          (fun q => { q with currentAction := "WINNER" })) s0) := by
      intro s0 h0 wids
      refine stacksNonneg_foldl StacksNonneg _ wids s0 h0 ?_
      intro s' a _ hs'
      exact stacksNonneg_updateFirstById s' a _ (fun q hq => hq) hs'
    apply h2
    split
    · apply stacksNonneg_oddChipLoop
      exact h1 s h _ _ (hbase _)
    · exact h1 s h _ _ (hbase _)

theorem computeSidePots_amount_pos (players : List Player) :
    ∀ pt ∈ computeSidePots players, 0 < pt.amount := by
  intro pt hpt
  unfold computeSidePots at hpt
  dsimp only at hpt
  split at hpt
  · simp at hpt
  · have := (List.mem_filter.1 hpt).2
    simpa using this

theorem stacksNonneg_resolveHand (s : GameState) (h : StacksNonneg s) :
    StacksNonneg (resolveHand s) := by
  unfold resolveHand
  dsimp only
  set players2 := (s.players.map (fun p =>
    syncLegacyFields { p with showCards := decide (p.status ≠ PlayerStatus.folded) })).map
    (fun p => if p.status = PlayerStatus.folded ∨ p.holeCards.length < 2 then p
      else { p with handStrength := some (evaluateHand p.holeCards s.communityCards) })
    with hpl2
  have h2 : ∀ p ∈ players2, 0 ≤ p.stack := by
    intro p hp
    rw [hpl2] at hp
    obtain ⟨p1, hp1, rfl⟩ := List.mem_map.1 hp
    obtain ⟨p0, hp0, rfl⟩ := List.mem_map.1 hp1
    have h0 := h p0 hp0
    split <;> simpa using h0
  intro q hq
  dsimp only at hq
  refine stacksNonneg_foldl (fun x : GameState × List Int => StacksNonneg x.1)
    _ _ _ ?_ ?_ q hq
  · intro p hp
    exact h2 p hp
  · intro x pt hpt hx
    exact stacksNonneg_awardPot x.1 pt x.1.dealerIndex
      (le_of_lt (computeSidePots_amount_pos players2 pt hpt)) hx

theorem commitChips_stack_nonneg (p : Player) (amt : Int) :
    0 ≤ (commitChips p amt).1.stack := by
  rw [commitChips_stack]
  omega

theorem stacksNonneg_burnOne (s : GameState) (h : StacksNonneg s) :
    StacksNonneg (burnOne s) := by
  unfold burnOne
  split
  · exact h
  · exact fun q hq => h q hq

theorem stacksNonneg_dealCommunity (n : Nat) : ∀ (s : GameState), StacksNonneg s →
    StacksNonneg (dealCommunity s n) := by
  induction n with
  | zero => intro s h; exact h
  | succ n ih =>
    intro s h
    unfold dealCommunity
    dsimp only
    split
    · exact ih _ (fun q hq => h q hq)
    · exact ih _ (fun q hq => h q hq)

theorem stacksNonneg_dealHoleTo (s : GameState) (i : Int) (h : StacksNonneg s) :
    StacksNonneg (dealHoleTo s i) := by
  unfold dealHoleTo
  rcases hg : getPlayer? s i with _ | p <;> simp only [hg]
  · exact h
  · split
    · split
      · refine stacksNonneg_setPlayerAt _ _ _ (fun q hq => h q hq) ?_
        rw [syncLegacyFields_stack]
        exact h p (getPlayer?_mem s i p hg)
      · refine stacksNonneg_setPlayerAt _ _ _ h ?_
        rw [syncLegacyFields_stack]
        exact h p (getPlayer?_mem s i p hg)
    · exact h

theorem stacksNonneg_postBlind (s : GameState) (i amt : Int) (h : StacksNonneg s) :
    StacksNonneg (postBlind s i amt).1 := by
  unfold postBlind
  rcases hg : getPlayer? s i with _ | p <;> simp only [hg]
  · exact h
  · split
    · exact stacksNonneg_setPlayerAt _ _ _ h (commitChips_stack_nonneg p amt)
    · exact h

theorem stacksNonneg_dealOffsets (seats : Nat) (rem : Nat) :
    ∀ (s : GameState) (offset : Nat), StacksNonneg s →
      StacksNonneg (dealOffsets seats s offset rem) := by
  induction rem with
  | zero => intro s _ h; exact h
  | succ rem ih =>
    intro s offset h
    unfold dealOffsets
    exact ih _ _ (stacksNonneg_dealHoleTo _ _ h)

theorem stacksNonneg_updatePlayerAt (s : GameState) (i : Int) (f : Player → Player)
    (hf : ∀ q, 0 ≤ q.stack → 0 ≤ (f q).stack) (h : StacksNonneg s) :
    StacksNonneg (updatePlayerAt s i f) := by
  unfold updatePlayerAt
  rcases hg : getPlayer? s i with _ | p <;> simp only [hg]
  · exact h
  · exact stacksNonneg_setPlayerAt _ _ _ h (hf p (h p (getPlayer?_mem s i p hg)))

theorem stacksNonneg_startHand (s : GameState) (shuffled : List Card) (h : StacksNonneg s) :
    StacksNonneg (startHand s shuffled) := by
  unfold startHand
  dsimp only
  refine stacksNonneg_betting _ _ ?_
  refine stacksNonneg_updatePlayerAt _ _ _ (fun q hq => hq) ?_
  refine stacksNonneg_updatePlayerAt _ _ _ (fun q hq => hq) ?_
  refine stacksNonneg_postBlind _ _ _ ?_
  refine stacksNonneg_postBlind _ _ _ ?_
  refine stacksNonneg_dealOffsets _ _ _ _ ?_
  refine stacksNonneg_dealOffsets _ _ _ _ ?_
  intro q hq
  obtain ⟨p0, hp0, rfl⟩ := List.mem_map.1 hq
  rw [syncLegacyFields_stack]
  exact h p0 hp0

theorem stacksNonneg_resetBets (s : GameState) (h : StacksNonneg s) :
    StacksNonneg (resetBetsForNextStreet s) := by
  unfold resetBetsForNextStreet
  dsimp only
  intro q hq
  obtain ⟨p0, hp0, rfl⟩ := List.mem_map.1 hq
  rw [syncLegacyFields_stack]
  exact h p0 hp0

theorem stacksNonneg_maybeEnd (s : GameState) (h : StacksNonneg s) :
    StacksNonneg (maybeEndHandIfOneLeft s).2 := by
  unfold maybeEndHandIfOneLeft
  dsimp only
  split
  · exact fun q hq => h q hq
  · exact h

theorem stacksNonneg_advanceStreetTail (s : GameState) (h : StacksNonneg s) :
    StacksNonneg (advanceStreetTail s).2 := by
  unfold advanceStreetTail
  dsimp only
  exact fun q hq => stacksNonneg_resetBets s h q hq

theorem stacksNonneg_advanceStreet (s : GameState) (h : StacksNonneg s) :
    StacksNonneg (advanceStreet s).2 := by
  unfold advanceStreet
  split
  · exact fun q hq =>
      stacksNonneg_advanceStreetTail _
        (fun a b => stacksNonneg_dealCommunity 3 _ (stacksNonneg_burnOne s h) a b) q hq
  · exact fun q hq =>
      stacksNonneg_advanceStreetTail _
        (fun a b => stacksNonneg_dealCommunity 1 _ (stacksNonneg_burnOne s h) a b) q hq
  · exact fun q hq =>
      stacksNonneg_advanceStreetTail _
        (fun a b => stacksNonneg_dealCommunity 1 _ (stacksNonneg_burnOne s h) a b) q hq
  · exact h
  · exact stacksNonneg_advanceStreetTail s h

theorem stacksNonneg_finishAction (s : GameState) (i : Int) (h : StacksNonneg s) :
    StacksNonneg (finishAction s i) := by
  unfold finishAction
  dsimp only
  have h1 : StacksNonneg (maybeEndHandIfOneLeft s).2 := stacksNonneg_maybeEnd s h
  split
  · have htotal : 0 ≤ ((computeSidePots (maybeEndHandIfOneLeft s).2.players).map
        (fun pt => pt.amount)).sum := by
      apply List.sum_nonneg
      intro x hx
      obtain ⟨pt, hpt, rfl⟩ := List.mem_map.1 hx
      exact le_of_lt (computeSidePots_amount_pos _ pt hpt)
    intro q hq
    split at hq
    · exact h1 q hq
    · refine stacksNonneg_updateFirstById _ _ _ ?_ h1 q hq
      intro q0 hq0
      rw [syncLegacyFields_stack]
      dsimp only
      omega
  · split
    · split
      · refine stacksNonneg_advanceStreet _ ?_
        exact fun a b => h a b
      · apply stacksNonneg_resolveHand
        refine stacksNonneg_advanceStreet _ ?_
        exact fun a b => h a b
    · exact fun q hq => h q hq

theorem stacksNonneg_raiseBranch (s1 : GameState) (p : Player) (i : Int)
    (legal : LegalActions) (highest amount : Int) (b : Bool) (h : StacksNonneg s1) :
    StacksNonneg (raiseOrAllInBranch s1 p i legal highest amount b) := by
  unfold raiseOrAllInBranch
  dsimp only
  split
  · exact h
  · repeat' split
    all_goals
      first
      | exact h
      | (apply stacksNonneg_finishAction
         intro q hq
         refine stacksNonneg_setPlayerAt s1 i _ h ?_ q hq
         rw [syncLegacyFields_stack]
         exact commitChips_stack_nonneg p _)

theorem stacksNonneg_applyAction (s : GameState) (i : Int) (a : Action) (amt : Int)
    (h : StacksNonneg s) : StacksNonneg (applyAction s i a amt) := by
  unfold applyAction
  split
  · exact h
  · rcases hg : getPlayer? s i with _ | p <;> simp only [hg]
    · exact h
    · split
      · exact h
      · have hm : StacksNonneg (markActed s i) := fun q hq => h q hq
        cases a with
        | fold =>
          dsimp only
          apply stacksNonneg_finishAction
          refine stacksNonneg_setPlayerAt _ _ _ hm ?_
          rw [syncLegacyFields_stack]
          exact h p (getPlayer?_mem s i p hg)
        | check =>
          dsimp only
          split
          · exact hm
          · apply stacksNonneg_finishAction
            refine stacksNonneg_setPlayerAt _ _ _ hm ?_
            rw [syncLegacyFields_stack]
            exact h p (getPlayer?_mem s i p hg)
        | call =>
          dsimp only
          split
          · exact hm
          · apply stacksNonneg_finishAction
            refine stacksNonneg_setPlayerAt _ _ _ hm ?_
            rw [syncLegacyFields_stack]
            exact commitChips_stack_nonneg p _
        | bet =>
          dsimp only
          split
          · exact hm
          · apply stacksNonneg_finishAction
            intro q hq
            refine stacksNonneg_setPlayerAt _ _ _ hm ?_ q hq
            rw [syncLegacyFields_stack]
            exact commitChips_stack_nonneg p _
        | raise =>
          dsimp only
          exact stacksNonneg_raiseBranch _ p i _ _ amt false hm
        | allIn =>
          dsimp only
          exact stacksNonneg_raiseBranch _ p i _ _ amt true hm

/-- C9: chip commits never drive a stack negative.  `commitChips` commits
exactly `min stack (max 0 amount)` (the clamp to the remaining stack), leaves
`stack - committed ≥ 0`, and flips an Active player whose stack hits exactly 0
to AllIn in the same commit; and each of `startHand`, `applyAction` and
`resolveHand` maps a state whose stacks are all ≥ 0 to a state whose stacks
are all ≥ 0. -/
theorem claim_c9_stack_invariant :
    (∀ (p : Player) (amt : Int),
        (commitChips p amt).2 = min p.stack (max 0 amt) ∧
        (commitChips p amt).1.stack = p.stack - (commitChips p amt).2 ∧
        0 ≤ (commitChips p amt).1.stack) ∧
    (∀ (p : Player) (amt : Int), p.status = PlayerStatus.active →
        (commitChips p amt).1.stack = 0 →
        (commitChips p amt).1.status = PlayerStatus.allIn) ∧
    (∀ (s : GameState) (shuffled : List Card), StacksNonneg s →
        StacksNonneg (startHand s shuffled)) ∧
    (∀ (s : GameState) (i : Int) (a : Action) (amt : Int), StacksNonneg s →
        StacksNonneg (applyAction s i a amt)) ∧
    (∀ (s : GameState), StacksNonneg s → StacksNonneg (resolveHand s)) := by
  refine ⟨?_, ?_, stacksNonneg_startHand, stacksNonneg_applyAction, stacksNonneg_resolveHand⟩
  · intro p amt
    refine ⟨commitChips_committed p amt, ?_, commitChips_stack_nonneg p amt⟩
    rw [commitChips_stack, commitChips_committed]
  · exact fun p amt => commitChips_allin p amt

/-- Witness for C9: the invariant theorem applied to the concrete short
all-in fixture state. -/
theorem claim_c9_witness :
    StacksNonneg shortAllInState ∧
    StacksNonneg (applyAction shortAllInState 2 Action.allIn 120) := by
  have hs : StacksNonneg shortAllInState := by decide
  exact ⟨hs, claim_c9_stack_invariant.2.2.2.1 shortAllInState 2 Action.allIn 120 hs⟩

/-- Witness for C2: the pot-partition theorem applied to the concrete side-pot
fixture (commitments 100 / 200 / 200 folded / 500). -/
theorem claim_c2_witness :
    (∀ p ∈ sidePotPlayers, 0 ≤ p.totalCommitted) ∧
    (((computeSidePots sidePotPlayers).map (fun pt => pt.amount)).sum
        = (sidePotPlayers.map (fun p => p.totalCommitted)).sum ∧
      ∀ p ∈ sidePotPlayers, 0 < p.totalCommitted → p.status ≠ PlayerStatus.folded →
        ∃ pt ∈ computeSidePots sidePotPlayers, p.id ∈ pt.eligiblePlayers) := by
  have h : ∀ p ∈ sidePotPlayers, 0 ≤ p.totalCommitted := by decide
  exact ⟨h, claim_c2_pot_partition sidePotPlayers h⟩

end PokerLogic
